import Mathlib

/-!
Verification of the hyperformula parser cache and engine front-end.

Source files embedded here:
* src/src/parser/ParserWithCaching.ts - the parser cache, the token-driven hash
  computeHashAndExtractAddresses and the lexer-free regex-driven hash
  computeHashAndExtractAddressesFromLexer, and isFormula.
* src/src/HandsOnEngine.ts - setCellContent, the structural operations
  addRows / removeRows / addColumns / removeColumns / moveCells, and
  recomputeIfDependencyGraphNeedsIt.

Collaborators that live outside the two source files (the chevrotain tokenizer,
FormulaParser, DependencyGraph, GraphBuilder, Evaluator, the columnIndex, and the
JavaScript builtins Number and Array.from) are modelled from the specification;
every such definition carries a doc comment starting with "Modelled from the spec".

Strings are embedded as lists of characters (`Str`); machine strings of the source
become `Str` values, and string concatenation becomes list append.
-/

abbrev Str := List Char

/-! ## Character classes of the regexes in ParserWithCaching.ts -/

/-- Character class [A-Za-z] of cellRegex. -/
def isLetterCh (c : Char) : Bool :=
  ('A' ≤ c && c ≤ 'Z') || ('a' ≤ c && c ≤ 'z')

/-- Character class [0-9] of cellRegex. -/
def isDigitCh (c : Char) : Bool :=
  '0' ≤ c && c ≤ '9'

/-- One [A-Za-z]+[0-9]+ group of cellRegex: the greedy match of letters then
digits, returning the matched characters and the rest; none when either the
letter part or the digit part is empty. -/
def cellCore (cs : Str) : Option (Str × Str) :=
  let letters := cs.takeWhile isLetterCh
  let rest1 := cs.dropWhile isLetterCh
  let digits := rest1.takeWhile isDigitCh
  let rest2 := rest1.dropWhile isDigitCh
  if letters.isEmpty || digits.isEmpty then none
  else some (letters ++ digits, rest2)

/-- cellRegex = /^[A-Za-z]+[0-9]+(:[A-Za-z]+[0-9]+)?/ : the anchored greedy match;
the optional range half is taken when a colon followed by a full second group
follows, otherwise only the first group matches. -/
def cellMatch (cs : Str) : Option Str :=
  match cellCore cs with
  | none => none
  | some (m1, rest) =>
    match rest with
    | ':' :: rest2 =>
      match cellCore rest2 with
      | none => some m1
      | some (m2, _) => some (m1 ++ ':' :: m2)
    | _ => some m1

/-! ## The lexer-free regex-driven scan (computeHashAndExtractAddressesFromLexer)

The do-while loop that consumes a quoted string becomes `stringLoop`.  The source
checks code[x-2] === a backslash after each stringRegex (/^[^']*'/) match; the
character at position x-2 is the last character of the [^']* part of the match
when that part is nonempty, and otherwise the character consumed just before this
match (always a quote: either the opening quote or the closing quote of the
previous match); that earlier character is threaded through as `prev`.  Fuel
bounds the recursion; every iteration consumes at least the matched closing
quote, so fuel equal to the remaining length never runs out before the scan
finishes or fails, and at zero fuel the remaining input is empty, where the
source also fails to match and throws. -/

def stringLoop : Nat → Char → Str → Option (Str × Str)
  | 0, _, _ => none
  | fuel + 1, prev, cs =>
    if cs.contains '\'' then
      let t := cs.takeWhile (fun c => c != '\'')
      let m := t ++ ['\'']
      let rest := cs.drop m.length
      let penult := t.getLastD prev
      if penult = '\\' then
        match stringLoop fuel '\'' rest with
        | none => none
        | some (m2, rest2) => some (m ++ m2, rest2)
      else
        some (m, rest)
    else
      none

/-- The character-by-character scan of computeHashAndExtractAddressesFromLexer:
a quote starts string mode (the quote and the string-regex matches go to the
hash verbatim); otherwise a cellRegex match is replaced by one placeholder and
pushed onto the addresses; otherwise the character is copied to the hash.
A `none` result is the thrown Error of the source. -/
def scanAux : Nat → Str → Option (List Str × Str)
  | 0, cs =>
    match cs with
    | [] => some ([], [])
    | _ :: _ => none
  | fuel + 1, cs =>
    match cs with
    | [] => some ([], [])
    | c :: rest =>
      if c = '\'' then
        match stringLoop rest.length '\'' rest with
        | none => none
        | some (m, rest2) =>
          match scanAux fuel rest2 with
          | none => none
          | some (addrs, hash) => some (addrs, c :: (m ++ hash))
      else
        match cellMatch (c :: rest) with
        | some m =>
          match scanAux fuel ((c :: rest).drop m.length) with
          | none => none
          | some (addrs, hash) => some (m :: addrs, '#' :: hash)
        | none =>
          match scanAux fuel rest with
          | none => none
          | some (addrs, hash) => some (addrs, c :: hash)

/-- computeHashAndExtractAddressesFromLexer of ParserWithCaching.ts; `none` is
the thrown Error('Unexpected parse error'). -/
def computeHashAndExtractAddressesFromLexer (code : Str) : Option (List Str × Str) :=
  scanAux code.length code

/-! ## The token-driven hash (computeHashAndExtractAddresses) -/

/-- A chevrotain token as consumed by computeHashAndExtractAddresses: the
tokenType.tokenName tag and the image. -/
structure IToken where
  tokenName : String
  image : Str
deriving DecidableEq

/-- computeHashAndExtractAddresses of ParserWithCaching.ts: the while loop over
the token list; a RelativeCell token (joined with a following RangeSeparator
and RelativeCell when present) contributes one placeholder to the hash and its
image to the addresses; every other token contributes its image to the hash. -/
def computeHashAndExtractAddresses : List IToken → List Str × Str
  | [] => ([], [])
  | t :: t1 :: t2 :: rest2 =>
    if t.tokenName = "RelativeCell" then
      if t1.tokenName = "RangeSeparator" && t2.tokenName = "RelativeCell" then
        let r := computeHashAndExtractAddresses rest2
        ((t.image ++ ':' :: t2.image) :: r.1, '#' :: r.2)
      else
        let r := computeHashAndExtractAddresses (t1 :: t2 :: rest2)
        (t.image :: r.1, '#' :: r.2)
    else
      let r := computeHashAndExtractAddresses (t1 :: t2 :: rest2)
      (r.1, t.image ++ r.2)
  | t :: rest =>
    if t.tokenName = "RelativeCell" then
      let r := computeHashAndExtractAddresses rest
      (t.image :: r.1, '#' :: r.2)
    else
      let r := computeHashAndExtractAddresses rest
      (r.1, t.image ++ r.2)

/-- isFormula of ParserWithCaching.ts: text.startsWith a leading equals sign. -/
def isFormula (text : Str) : Bool :=
  match text with
  | c :: _ => c = '='
  | [] => false

/-! ## Formula skeletons

A formula text that may differ from another only in its relative-cell operands
is presented as an instantiated skeleton: a list of segments that are either a
single literal character, a quoted string literal, or a relative cell operand
(one cell, or a cell range with two halves).  Two texts differ only in their
relative-cell operands when they render the same skeleton whose cell operands
may differ.  `alignedSegs` states that the scan of
computeHashAndExtractAddressesFromLexer recognises the segments exactly as laid
out: no literal character starts a spurious cell match against the following
text, every cell operand is matched whole, and every string literal is a plain
quote-delimited run (no quote inside, no trailing backslash). -/

inductive Seg where
  | lit (c : Char)
  | strLit (s : Str)
  | cell (a : Str) (b : Option Str)
deriving DecidableEq

/-- The text of one cell operand: one cell, or two halves joined by a colon. -/
def opRender (a : Str) (b : Option Str) : Str :=
  match b with
  | none => a
  | some b2 => a ++ ':' :: b2

/-- The text of one segment. -/
def renderSeg : Seg → Str
  | .lit c => [c]
  | .strLit s => '\'' :: s ++ ['\'']
  | .cell a b => opRender a b

/-- The formula text of an instantiated skeleton. -/
def render (segs : List Seg) : Str :=
  match segs with
  | [] => []
  | s :: rest => renderSeg s ++ render rest

/-- The template-hash contribution of one segment: literal characters and
string literals verbatim, one placeholder per cell operand. -/
def segHash : Seg → Str
  | .lit c => [c]
  | .strLit s => '\'' :: s ++ ['\'']
  | .cell _ _ => ['#']

/-- The template hash of an instantiated skeleton. -/
def skelHash (segs : List Seg) : Str :=
  match segs with
  | [] => []
  | s :: rest => segHash s ++ skelHash rest

/-- The extracted addresses of an instantiated skeleton, in source order. -/
def segsAddrs (segs : List Seg) : List Str :=
  match segs with
  | [] => []
  | .cell a b :: rest => opRender a b :: segsAddrs rest
  | _ :: rest => segsAddrs rest

/-- The scan of computeHashAndExtractAddressesFromLexer recognises the
instantiated skeleton segment by segment. -/
def alignedSegs (segs : List Seg) : Bool :=
  match segs with
  | [] => true
  | .lit c :: rest =>
    c ≠ '\'' && (cellMatch (c :: render rest)).isNone && alignedSegs rest
  | .strLit s :: rest =>
    s.all (fun c => c != '\'') && s.getLastD '\'' ≠ '\\' && alignedSegs rest
  | .cell a b :: rest =>
    decide (cellMatch (opRender a b ++ render rest) = some (opRender a b)) &&
      !(opRender a b).isEmpty && alignedSegs rest

/-- Two instantiated skeletons differ only in their relative-cell operands:
same segment shapes, equal literal characters and string literals, arbitrary
cell operands. -/
def sameSkeleton : List Seg → List Seg → Bool
  | [], [] => true
  | .lit c :: r1, .lit d :: r2 => c = d && sameSkeleton r1 r2
  | .strLit s :: r1, .strLit t :: r2 => s = t && sameSkeleton r1 r2
  | .cell _ _ :: r1, .cell _ _ :: r2 => sameSkeleton r1 r2
  | _, _ => false

/-- Modelled from the spec: tokenizeFormula (FormulaParser.ts) is not under src.
Per the spec, tokenization produces a stream of lexical tokens whose images
cover the formula text in order; a relative cell operand becomes a RelativeCell
token, a cell range becomes RelativeCell, RangeSeparator, RelativeCell, and
every other piece of text keeps its image under a non-reference token type. -/
def tokensOfSeg : Seg → List IToken
  | .lit c => [⟨"Lit", [c]⟩]
  | .strLit s => [⟨"StringLiteral", '\'' :: s ++ ['\'']⟩]
  | .cell a none => [⟨"RelativeCell", a⟩]
  | .cell a (some b) => [⟨"RelativeCell", a⟩, ⟨"RangeSeparator", [':']⟩, ⟨"RelativeCell", b⟩]

/-- The token stream of an instantiated skeleton. -/
def tokensOfFormula (segs : List Seg) : List IToken :=
  match segs with
  | [] => []
  | s :: rest => tokensOfSeg s ++ tokensOfFormula rest

/-! ## Lemmas about the lexer-free scan -/

theorem scanAux_nil (fuel : Nat) : scanAux fuel [] = some ([], []) := by
  cases fuel <;> rfl

theorem takeWhile_append_quote (s r : Str) (h : s.all (fun c => c != '\'') = true) :
    (s ++ '\'' :: r).takeWhile (fun c => c != '\'') = s := by
  induction s with
  | nil => simp [List.takeWhile]
  | cons c cs ih =>
    simp only [List.all_cons, Bool.and_eq_true] at h
    simp [List.takeWhile, h.1, ih h.2]

theorem contains_append_quote (s r : Str) : (s ++ '\'' :: r).contains '\'' = true := by
  induction s with
  | nil => simp
  | cons c cs ih => simp only [List.cons_append, List.contains_cons, ih, Bool.or_true]

theorem stringLoop_once (fuel : Nat) (prev : Char) (s r : Str)
    (hf : 1 ≤ fuel) (hs : s.all (fun c => c != '\'') = true)
    (hl : s.getLastD prev ≠ '\\') :
    stringLoop fuel prev (s ++ '\'' :: r) = some (s ++ ['\''], r) := by
  cases fuel with
  | zero => omega
  | succ n =>
    have hl2 : (s.getLast?).getD prev ≠ '\\' := by
      rw [← List.getLastD_eq_getLast?]; exact hl
    have hdrop : (s ++ '\'' :: r).drop (s ++ ['\'']).length = r := by
      have h : s ++ '\'' :: r = (s ++ ['\'']) ++ r := by simp
      rw [h, List.drop_left]
    rw [stringLoop, contains_append_quote s r, takeWhile_append_quote s r hs]
    simp only [if_true, hdrop]
    simp [List.getLastD_eq_getLast?, hl2]

theorem stringLoop_continue (fuel : Nat) (prev : Char) (a b r : Str)
    (hf : 2 ≤ fuel)
    (ha : a.all (fun c => c != '\'') = true)
    (hb : b.all (fun c => c != '\'') = true)
    (hbl : b.getLastD '\'' ≠ '\\') :
    stringLoop fuel prev (a ++ '\\' :: '\'' :: (b ++ '\'' :: r)) =
      some (a ++ '\\' :: '\'' :: (b ++ ['\'']), r) := by
  cases fuel with
  | zero => omega
  | succ n =>
    rw [stringLoop]
    have hsplit : a ++ '\\' :: '\'' :: (b ++ '\'' :: r) =
        (a ++ ['\\']) ++ '\'' :: (b ++ '\'' :: r) := by simp
    have hall : (a ++ ['\\']).all (fun c => c != '\'') = true := by
      simp [List.all_append, ha]
    rw [hsplit, contains_append_quote (a ++ ['\\']) (b ++ '\'' :: r),
      takeWhile_append_quote (a ++ ['\\']) (b ++ '\'' :: r) hall]
    simp only [if_true]
    have hpen : (a ++ ['\\']).getLastD prev = '\\' := by
      simp [List.getLastD_concat]
    have hdrop : ((a ++ ['\\']) ++ '\'' :: (b ++ '\'' :: r)).drop
        ((a ++ ['\\']) ++ ['\'']).length = b ++ '\'' :: r := by
      have : (a ++ ['\\']) ++ '\'' :: (b ++ '\'' :: r) =
          ((a ++ ['\\']) ++ ['\'']) ++ (b ++ '\'' :: r) := by simp
      rw [this, List.drop_left]
    rw [hdrop, hpen]
    simp only [if_pos rfl]
    rw [stringLoop_once n '\'' b r (by omega) hb hbl]
    simp

theorem cellCore_head_letter (cs : Str) (m rest : Str) (h : cellCore cs = some (m, rest)) :
    ∃ c cs2, cs = c :: cs2 ∧ isLetterCh c = true := by
  cases cs with
  | nil => simp [cellCore] at h
  | cons c cs2 =>
    by_cases hc : isLetterCh c = true
    · exact ⟨c, cs2, rfl, hc⟩
    · simp [cellCore, List.takeWhile_cons, hc] at h

theorem cellMatch_head_letter (cs : Str) (m : Str) (h : cellMatch cs = some m) :
    ∃ c cs2, cs = c :: cs2 ∧ isLetterCh c = true := by
  unfold cellMatch at h
  cases hcc : cellCore cs with
  | none => rw [hcc] at h; exact absurd h (by simp)
  | some p => exact cellCore_head_letter cs p.1 p.2 (by rw [hcc])

theorem isLetterCh_ne_quote (c : Char) (h : isLetterCh c = true) : c ≠ '\'' := by
  intro he
  subst he
  exact absurd h (by decide)

/-- The lexer-free scan of an aligned instantiated skeleton succeeds and yields
exactly the skeleton addresses and the skeleton hash. -/
theorem scanAux_render (segs : List Seg) :
    alignedSegs segs = true →
    ∀ fuel : Nat, (render segs).length ≤ fuel →
    scanAux fuel (render segs) = some (segsAddrs segs, skelHash segs) := by
  induction segs with
  | nil =>
    intro _ fuel _
    simp [render, segsAddrs, skelHash, scanAux_nil]
  | cons sg rest ih =>
    intro hal fuel hfuel
    cases sg with
    | lit c =>
      simp only [alignedSegs, Bool.and_eq_true, decide_eq_true_eq,
        Option.isNone_iff_eq_none] at hal
      obtain ⟨⟨hc, hcm⟩, hrest⟩ := hal
      have hr : render (Seg.lit c :: rest) = c :: render rest := by
        simp [render, renderSeg]
      rw [hr] at hfuel ⊢
      cases fuel with
      | zero => simp at hfuel
      | succ n =>
        rw [scanAux, if_neg hc, hcm]
        rw [ih hrest n (by simpa using hfuel)]
        simp [segsAddrs, skelHash, segHash]
    | strLit s =>
      simp only [alignedSegs, Bool.and_eq_true, decide_eq_true_eq] at hal
      obtain ⟨⟨hs, hlast⟩, hrest⟩ := hal
      have hr : render (Seg.strLit s :: rest) = '\'' :: (s ++ '\'' :: render rest) := by
        simp [render, renderSeg]
      rw [hr] at hfuel ⊢
      cases fuel with
      | zero => simp at hfuel
      | succ n =>
        rw [scanAux, if_pos rfl]
        rw [stringLoop_once (s ++ '\'' :: render rest).length '\'' s (render rest)
          (by simp only [List.length_append, List.length_cons]; omega) hs hlast]
        have hn : (render rest).length ≤ n := by
          simp only [List.length_cons, List.length_append] at hfuel
          omega
        simp [ih hrest n hn, segsAddrs, skelHash, segHash]
    | cell a b =>
      simp only [alignedSegs, Bool.and_eq_true, decide_eq_true_eq,
        Bool.not_eq_true'] at hal
      obtain ⟨⟨hcm, hne⟩, hrest⟩ := hal
      have hr : render (Seg.cell a b :: rest) = opRender a b ++ render rest := by
        simp [render, renderSeg]
      rw [hr] at hfuel ⊢
      obtain ⟨c, cs2, hsplit, hletter⟩ :=
        cellMatch_head_letter (opRender a b ++ render rest) (opRender a b) hcm
      have hne2 : (opRender a b).length ≠ 0 := by
        cases hop : opRender a b with
        | nil => rw [hop] at hne; simp at hne
        | cons x xs => simp [hop]
      cases fuel with
      | zero =>
        rw [hsplit] at hfuel
        simp at hfuel
      | succ n =>
        rw [hsplit] at hcm ⊢
        rw [scanAux, if_neg (isLetterCh_ne_quote c hletter), hcm]
        have hdrop : (c :: cs2).drop (opRender a b).length = render rest := by
          rw [← hsplit, List.drop_left]
        have hn : (render rest).length ≤ n := by
          simp only [List.length_append] at hfuel
          omega
        simp [hdrop, ih hrest n hn, segsAddrs, skelHash, segHash]

/-- The skeleton hash ignores the cell operands: two instantiations of the same
skeleton hash identically. -/
theorem sameSkeleton_skelHash (s1 s2 : List Seg) (h : sameSkeleton s1 s2 = true) :
    skelHash s1 = skelHash s2 := by
  induction s1 generalizing s2 with
  | nil =>
    cases s2 with
    | nil => rfl
    | cons x r2 => cases x <;> simp [sameSkeleton] at h
  | cons x r1 ih =>
    cases s2 with
    | nil => cases x <;> simp [sameSkeleton] at h
    | cons y r2 =>
      cases x <;> cases y <;> simp only [sameSkeleton, Bool.and_eq_true,
        decide_eq_true_eq] at h
      case lit.lit c d =>
        obtain ⟨rfl, h2⟩ := h
        simp [skelHash, segHash, ih r2 h2]
      case strLit.strLit s t =>
        obtain ⟨rfl, h2⟩ := h
        simp [skelHash, segHash, ih r2 h2]
      case cell.cell a b a2 b2 =>
        simp [skelHash, segHash, ih r2 h]
      all_goals exact Bool.noConfusion h

/-- The first token of a tokenized skeleton is never a RangeSeparator. -/
theorem tokensOfFormula_head_not_sep (segs : List Seg) :
    ∀ t ts, tokensOfFormula segs = t :: ts → t.tokenName ≠ "RangeSeparator" := by
  intro t ts h
  cases segs with
  | nil => simp [tokensOfFormula] at h
  | cons x rest =>
    cases x with
    | lit c =>
      simp [tokensOfFormula, tokensOfSeg] at h
      rw [← h.1]
      simp
    | strLit s =>
      simp [tokensOfFormula, tokensOfSeg] at h
      rw [← h.1]
      simp
    | cell a b =>
      cases b with
      | none =>
        simp [tokensOfFormula, tokensOfSeg] at h
        rw [← h.1]
        simp
      | some b2 =>
        simp [tokensOfFormula, tokensOfSeg] at h
        rw [← h.1]
        simp

/-- A non-RelativeCell token contributes its image to the token-driven hash. -/
theorem chaea_nonrel (nm : String) (img : Str) (ts : List IToken)
    (h : nm ≠ "RelativeCell") :
    computeHashAndExtractAddresses (⟨nm, img⟩ :: ts) =
      ((computeHashAndExtractAddresses ts).1,
        img ++ (computeHashAndExtractAddresses ts).2) := by
  match ts with
  | [] => simp [computeHashAndExtractAddresses, h]
  | [t1] => simp [computeHashAndExtractAddresses, h]
  | t1 :: t2 :: r => simp [computeHashAndExtractAddresses, h]

/-- A RelativeCell token not followed by a RangeSeparator plus RelativeCell pair
contributes one placeholder and its own image as address. -/
theorem chaea_rel_single (a : Str) (ts : List IToken)
    (h : ∀ t ts2, ts = t :: ts2 → t.tokenName ≠ "RangeSeparator") :
    computeHashAndExtractAddresses (⟨"RelativeCell", a⟩ :: ts) =
      (a :: (computeHashAndExtractAddresses ts).1,
        '#' :: (computeHashAndExtractAddresses ts).2) := by
  match ts with
  | [] => simp [computeHashAndExtractAddresses]
  | [t1] => simp [computeHashAndExtractAddresses]
  | t1 :: t2 :: r =>
    have hsep : t1.tokenName ≠ "RangeSeparator" := h t1 (t2 :: r) rfl
    simp [computeHashAndExtractAddresses, hsep]

/-- The token-driven hash of a tokenized skeleton equals the skeleton hash, and
the extracted addresses equal the skeleton addresses. -/
theorem chaea_tokensOfFormula (segs : List Seg) :
    computeHashAndExtractAddresses (tokensOfFormula segs) =
      (segsAddrs segs, skelHash segs) := by
  induction segs with
  | nil => rfl
  | cons x rest ih =>
    cases x with
    | lit c =>
      have h : tokensOfFormula (Seg.lit c :: rest) =
          ⟨"Lit", [c]⟩ :: tokensOfFormula rest := by
        simp [tokensOfFormula, tokensOfSeg]
      rw [h, chaea_nonrel "Lit" [c] (tokensOfFormula rest) (by simp), ih]
      simp [segsAddrs, skelHash, segHash]
    | strLit s =>
      have h : tokensOfFormula (Seg.strLit s :: rest) =
          ⟨"StringLiteral", '\'' :: s ++ ['\'']⟩ :: tokensOfFormula rest := by
        simp [tokensOfFormula, tokensOfSeg]
      rw [h, chaea_nonrel "StringLiteral" ('\'' :: s ++ ['\''])
        (tokensOfFormula rest) (by simp), ih]
      simp [segsAddrs, skelHash, segHash]
    | cell a b =>
      cases b with
      | none =>
        have h : tokensOfFormula (Seg.cell a none :: rest) =
            ⟨"RelativeCell", a⟩ :: tokensOfFormula rest := by
          simp [tokensOfFormula, tokensOfSeg]
        rw [h, chaea_rel_single a (tokensOfFormula rest)
          (tokensOfFormula_head_not_sep rest), ih]
        simp [segsAddrs, skelHash, segHash, opRender]
      | some b2 =>
        have h : tokensOfFormula (Seg.cell a (some b2) :: rest) =
            ⟨"RelativeCell", a⟩ :: ⟨"RangeSeparator", [':']⟩ ::
              ⟨"RelativeCell", b2⟩ :: tokensOfFormula rest := by
          simp [tokensOfFormula, tokensOfSeg]
        rw [h]
        simp only [computeHashAndExtractAddresses]
        simp [ih, segsAddrs, skelHash, segHash, opRender]

/-! ## The parser cache (ParserWithCaching.parse) -/

/-- The typed error kinds of the spec's value domain. -/
inductive ErrKind where
  | divZero | nameErr | valueErr | refErr | numErr | na | cycle | parseErr
deriving DecidableEq

/-- Modelled from the spec: the TemplateAst node shapes of Ast.ts (not under
src).  Per the spec's data model the nodes are Number, String, Boolean, Error,
CellReference, RangeReference, UnaryOp, BinaryOp, FunctionCall and EmptyArg;
inside a cached template the relative cell and range references are
placeholders, so the reference nodes carry no operand here. -/
inductive TemplateAst where
  | numberNode (n : Int)
  | stringNode (s : Str)
  | booleanNode (b : Bool)
  | errorNode (k : ErrKind)
  | cellRefNode
  | rangeRefNode
  | unaryOpNode (op : Char) (arg : TemplateAst)
  | binaryOpNode (op : Char) (left : TemplateAst) (right : TemplateAst)
  | funCallNode (name : Str) (args : List TemplateAst)
  | emptyArgNode

/-- The value returned by ParserWithCaching.parse (interface Ast of Ast.ts):
the template AST and the extracted addresses. -/
structure AstResult where
  ast : TemplateAst
  addresses : List Str

/-- The mutable state of a ParserWithCaching instance: the hash-indexed cache
map and the statsCacheUsed counter. -/
structure ParserWithCaching where
  cache : List (Str × TemplateAst)
  statsCacheUsed : Nat

/-- Map.get of the cache: the most recently set binding of the key. -/
def cacheGet (cache : List (Str × TemplateAst)) (k : Str) : Option TemplateAst :=
  (cache.find? (fun kv => kv.1 == k)).map (fun kv => kv.2)

/-- Map.set of the cache. -/
def cacheSet (cache : List (Str × TemplateAst)) (k : Str) (v : TemplateAst) :
    List (Str × TemplateAst) :=
  (k, v) :: cache

/-- The optimizationMode === lexer branch of ParserWithCaching.parse.
parseFormula (FormulaParser.ts, not under src) is the parameter pf; the
hashing may throw (none), and that exception propagates before anything is
cached.  On a cache hit statsCacheUsed is incremented and the cached template
is returned; on a miss the parsed AST is cached and returned. -/
def parseLexerMode (pf : Str → TemplateAst) (p : ParserWithCaching) (text : Str) :
    Option (AstResult × ParserWithCaching) :=
  match computeHashAndExtractAddressesFromLexer text with
  | none => none
  | some (addresses, hash) =>
    match cacheGet p.cache hash with
    | some cachedAst =>
      some ({ ast := cachedAst, addresses := addresses },
        { p with statsCacheUsed := p.statsCacheUsed + 1 })
    | none =>
      let ast := pf text
      some ({ ast := ast, addresses := addresses },
        { p with cache := cacheSet p.cache hash ast })

/-- The default (parser) branch of ParserWithCaching.parse.  tokenizeFormula
and parseFromTokens (FormulaParser.ts, not under src) are the parameters
tokenize and pft. -/
def parseTokenMode (tokenize : Str → List IToken) (pft : List IToken → TemplateAst)
    (p : ParserWithCaching) (text : Str) : AstResult × ParserWithCaching :=
  let lexerResult := tokenize text
  let r := computeHashAndExtractAddresses lexerResult
  match cacheGet p.cache r.2 with
  | some cachedAst =>
    ({ ast := cachedAst, addresses := r.1 },
      { p with statsCacheUsed := p.statsCacheUsed + 1 })
  | none =>
    let ast := pft lexerResult
    ({ ast := ast, addresses := r.1 },
      { p with cache := cacheSet p.cache r.2 ast })

/-- Modelled from the spec: parseFormula (FormulaParser.ts) is not under src.
Per the spec's AST data model, a formula consisting of a single relative cell
reference parses to a CellReference node, one consisting of a single relative
range reference to a RangeReference node (both placeholders inside the cached
template), and text that fails to parse yields an AST node of kind
Error(parse).  The model covers exactly those forms. -/
def parseFormulaModel (text : Str) : TemplateAst :=
  match text with
  | '=' :: rest =>
    match cellMatch rest with
    | some m =>
      if m = rest then
        if m.contains ':' then TemplateAst.rangeRefNode else TemplateAst.cellRefNode
      else TemplateAst.errorNode ErrKind.parseErr
    | none => TemplateAst.errorNode ErrKind.parseErr
  | _ => TemplateAst.errorNode ErrKind.parseErr

theorem cacheGet_cacheSet (cache : List (Str × TemplateAst)) (k : Str) (v : TemplateAst) :
    cacheGet (cacheSet cache k v) k = some v := by
  simp [cacheGet, cacheSet, List.find?]

/-- A parse on a cache miss stores the parsed template under the hash. -/
theorem parseLexerMode_miss (pf : Str → TemplateAst) (p : ParserWithCaching)
    (text : Str) (addrs : List Str) (h : Str)
    (hscan : computeHashAndExtractAddressesFromLexer text = some (addrs, h))
    (hmiss : cacheGet p.cache h = none) :
    parseLexerMode pf p text =
      some ({ ast := pf text, addresses := addrs },
        { p with cache := cacheSet p.cache h (pf text) }) := by
  simp [parseLexerMode, hscan, hmiss]

/-- A parse on a cache hit returns the cached template and bumps the counter. -/
theorem parseLexerMode_hit (pf : Str → TemplateAst) (p : ParserWithCaching)
    (text : Str) (addrs : List Str) (h : Str) (ast : TemplateAst)
    (hscan : computeHashAndExtractAddressesFromLexer text = some (addrs, h))
    (hhit : cacheGet p.cache h = some ast) :
    parseLexerMode pf p text =
      some ({ ast := ast, addresses := addrs },
        { p with statsCacheUsed := p.statsCacheUsed + 1 }) := by
  simp [parseLexerMode, hscan, hhit]

/-! ## Claims about the two hashing modes and the cache -/

/-- C1: for every formula text that differs from another only in its
relative-cell operands (two aligned instantiations of one skeleton), the
token-driven hashing mode (computeHashAndExtractAddresses over the token
stream) and the lexer-free regex-driven hashing mode
(computeHashAndExtractAddressesFromLexer) compute the same hash string for it,
and that hash is moreover the same for the two texts. -/
theorem c1_hashing_modes_agree (segs1 segs2 : List Seg)
    (h1 : alignedSegs segs1 = true) (h2 : alignedSegs segs2 = true)
    (hs : sameSkeleton segs1 segs2 = true) :
    computeHashAndExtractAddressesFromLexer (render segs1) =
      some (computeHashAndExtractAddresses (tokensOfFormula segs1)) ∧
    computeHashAndExtractAddressesFromLexer (render segs2) =
      some (computeHashAndExtractAddresses (tokensOfFormula segs2)) ∧
    (computeHashAndExtractAddresses (tokensOfFormula segs1)).2 =
      (computeHashAndExtractAddresses (tokensOfFormula segs2)).2 := by
  have e1 := scanAux_render segs1 h1 (render segs1).length (le_refl _)
  have e2 := scanAux_render segs2 h2 (render segs2).length (le_refl _)
  refine ⟨?_, ?_, ?_⟩
  · rw [computeHashAndExtractAddressesFromLexer, e1, chaea_tokensOfFormula]
  · rw [computeHashAndExtractAddressesFromLexer, e2, chaea_tokensOfFormula]
  · rw [chaea_tokensOfFormula, chaea_tokensOfFormula]
    exact sameSkeleton_skelHash segs1 segs2 hs

theorem c1_hashing_modes_agree_witness :
    computeHashAndExtractAddressesFromLexer
        (render [Seg.lit '=', Seg.cell ['A', '1'] none, Seg.lit '+', Seg.lit '2']) =
      some (computeHashAndExtractAddresses
        (tokensOfFormula [Seg.lit '=', Seg.cell ['A', '1'] none, Seg.lit '+', Seg.lit '2'])) ∧
    computeHashAndExtractAddressesFromLexer
        (render [Seg.lit '=', Seg.cell ['B', '5'] none, Seg.lit '+', Seg.lit '2']) =
      some (computeHashAndExtractAddresses
        (tokensOfFormula [Seg.lit '=', Seg.cell ['B', '5'] none, Seg.lit '+', Seg.lit '2'])) ∧
    (computeHashAndExtractAddresses
        (tokensOfFormula [Seg.lit '=', Seg.cell ['A', '1'] none, Seg.lit '+', Seg.lit '2'])).2 =
      (computeHashAndExtractAddresses
        (tokensOfFormula [Seg.lit '=', Seg.cell ['B', '5'] none, Seg.lit '+', Seg.lit '2'])).2 :=
  c1_hashing_modes_agree
    [Seg.lit '=', Seg.cell ['A', '1'] none, Seg.lit '+', Seg.lit '2']
    [Seg.lit '=', Seg.cell ['B', '5'] none, Seg.lit '+', Seg.lit '2']
    (by decide) (by decide) (by decide)

/-- C2 counterexample: the single-cell formula text and the range formula text
collide on the same hash although their ASTs differ in shape (a CellReference
versus a RangeReference), and the second parse even returns the cached
single-cell template for the range formula. -/
theorem c2_hash_shape_counterexample :
    (computeHashAndExtractAddressesFromLexer ['=', 'A', '1']).map Prod.snd =
      some ['=', '#'] ∧
    (computeHashAndExtractAddressesFromLexer ['=', 'A', '1', ':', 'B', '2']).map Prod.snd =
      some ['=', '#'] ∧
    parseFormulaModel ['=', 'A', '1'] = TemplateAst.cellRefNode ∧
    parseFormulaModel ['=', 'A', '1', ':', 'B', '2'] = TemplateAst.rangeRefNode ∧
    TemplateAst.cellRefNode ≠ TemplateAst.rangeRefNode ∧
    parseLexerMode parseFormulaModel ⟨[], 0⟩ ['=', 'A', '1'] =
      some ({ ast := TemplateAst.cellRefNode, addresses := [['A', '1']] },
        ⟨[(['=', '#'], TemplateAst.cellRefNode)], 0⟩) ∧
    parseLexerMode parseFormulaModel ⟨[(['=', '#'], TemplateAst.cellRefNode)], 0⟩
        ['=', 'A', '1', ':', 'B', '2'] =
      some ({ ast := TemplateAst.cellRefNode, addresses := [['A', '1', ':', 'B', '2']] },
        ⟨[(['=', '#'], TemplateAst.cellRefNode)], 1⟩) := by
  refine ⟨rfl, rfl, rfl, rfl, ?_, rfl, rfl⟩
  intro h
  cases h

/-- C2 amended: if two formula texts yield the same template hash, the cache
maps that hash to one template AST: a first parse stores its template under
the hash and a second parse of the other text returns that very template (and
bumps statsCacheUsed).  Structural identity of the two ASTs up to renaming of
relative references does not follow; in particular a single cell reference and
a range reference can collide on the same hash. -/
theorem c2_amended_hash_maps_to_template (pf : Str → TemplateAst)
    (p0 : ParserWithCaching) (t1 t2 : Str) (addrs1 addrs2 : List Str) (h : Str)
    (hs1 : computeHashAndExtractAddressesFromLexer t1 = some (addrs1, h))
    (hs2 : computeHashAndExtractAddressesFromLexer t2 = some (addrs2, h))
    (hmiss : cacheGet p0.cache h = none) :
    ∃ p1 : ParserWithCaching,
      parseLexerMode pf p0 t1 = some ({ ast := pf t1, addresses := addrs1 }, p1) ∧
      parseLexerMode pf p1 t2 =
        some ({ ast := pf t1, addresses := addrs2 },
          { p1 with statsCacheUsed := p1.statsCacheUsed + 1 }) := by
  refine ⟨{ p0 with cache := cacheSet p0.cache h (pf t1) }, ?_, ?_⟩
  · exact parseLexerMode_miss pf p0 t1 addrs1 h hs1 hmiss
  · exact parseLexerMode_hit pf _ t2 addrs2 h (pf t1) hs2 (cacheGet_cacheSet p0.cache h (pf t1))

theorem c2_amended_hash_maps_to_template_witness :
    ∃ p1 : ParserWithCaching,
      parseLexerMode parseFormulaModel ⟨[], 0⟩ ['=', 'A', '1'] =
        some ({ ast := parseFormulaModel ['=', 'A', '1'], addresses := [['A', '1']] }, p1) ∧
      parseLexerMode parseFormulaModel p1 ['=', 'A', '1', ':', 'B', '2'] =
        some
          ({ ast := parseFormulaModel ['=', 'A', '1'], addresses := [['A', '1', ':', 'B', '2']] },
            { p1 with statsCacheUsed := p1.statsCacheUsed + 1 }) :=
  c2_amended_hash_maps_to_template parseFormulaModel ⟨[], 0⟩
    ['=', 'A', '1'] ['=', 'A', '1', ':', 'B', '2']
    [['A', '1']] [['A', '1', ':', 'B', '2']] ['=', '#'] rfl rfl rfl

/-- C3 counterexample: on the one-character input consisting of a single
quote, the lexer-free hashing throws (Error of an unexpected parse error), so
ParserWithCaching.parse in lexer mode throws instead of returning an
Error(parse) AST, and nothing is cached. -/
theorem c3_parse_throws_counterexample :
    computeHashAndExtractAddressesFromLexer ['\''] = none ∧
    parseLexerMode parseFormulaModel ⟨[], 0⟩ ['\''] = none := by
  exact ⟨rfl, rfl⟩

/-- C3 amended: in lexer mode an input whose quoted string is unterminated
makes parse throw from the hash scan before anything is cached; for every
other input the parse returns a value, and when parseFormula yields an AST
node of kind Error(parse) that error template is cached like any other result
and a subsequent parse of an equal-hash text returns it as a cache hit. -/
theorem c3_amended_error_ast_cached (pf : Str → TemplateAst)
    (p0 : ParserWithCaching) (t1 t2 : Str) (addrs1 addrs2 : List Str) (h : Str)
    (hpf : pf t1 = TemplateAst.errorNode ErrKind.parseErr)
    (hs1 : computeHashAndExtractAddressesFromLexer t1 = some (addrs1, h))
    (hs2 : computeHashAndExtractAddressesFromLexer t2 = some (addrs2, h))
    (hmiss : cacheGet p0.cache h = none) :
    ∃ p1 : ParserWithCaching,
      parseLexerMode pf p0 t1 =
        some ({ ast := TemplateAst.errorNode ErrKind.parseErr, addresses := addrs1 }, p1) ∧
      cacheGet p1.cache h = some (TemplateAst.errorNode ErrKind.parseErr) ∧
      parseLexerMode pf p1 t2 =
        some ({ ast := TemplateAst.errorNode ErrKind.parseErr, addresses := addrs2 },
          { p1 with statsCacheUsed := p1.statsCacheUsed + 1 }) := by
  refine ⟨{ p0 with cache := cacheSet p0.cache h (pf t1) }, ?_, ?_, ?_⟩
  · rw [← hpf]
    exact parseLexerMode_miss pf p0 t1 addrs1 h hs1 hmiss
  · rw [← hpf]
    exact cacheGet_cacheSet p0.cache h (pf t1)
  · rw [← hpf]
    exact parseLexerMode_hit pf _ t2 addrs2 h (pf t1) hs2 (cacheGet_cacheSet p0.cache h (pf t1))

theorem c3_amended_error_ast_cached_witness :
    ∃ p1 : ParserWithCaching,
      parseLexerMode parseFormulaModel ⟨[], 0⟩ ['=', ')'] =
        some ({ ast := TemplateAst.errorNode ErrKind.parseErr, addresses := [] }, p1) ∧
      cacheGet p1.cache ['=', ')'] = some (TemplateAst.errorNode ErrKind.parseErr) ∧
      parseLexerMode parseFormulaModel p1 ['=', ')'] =
        some ({ ast := TemplateAst.errorNode ErrKind.parseErr, addresses := [] },
          { p1 with statsCacheUsed := p1.statsCacheUsed + 1 }) :=
  c3_amended_error_ast_cached parseFormulaModel ⟨[], 0⟩ ['=', ')'] ['=', ')']
    [] [] ['=', ')'] rfl rfl rfl rfl

/-- C4: for two formula texts that differ only in their relative cell operands
(and whose common hash is not yet cached), parsing the first and then the
second yields the same hash for both, and the second parse returns the very
template AST stored by the first parse while statsCacheUsed is incremented by
one - a cache hit. -/
theorem c4_cache_hit_on_relative_variants (pf : Str → TemplateAst)
    (segs1 segs2 : List Seg) (p0 : ParserWithCaching)
    (h1 : alignedSegs segs1 = true) (h2 : alignedSegs segs2 = true)
    (hs : sameSkeleton segs1 segs2 = true)
    (hmiss : cacheGet p0.cache (skelHash segs1) = none) :
    (computeHashAndExtractAddressesFromLexer (render segs1)).map Prod.snd =
      (computeHashAndExtractAddressesFromLexer (render segs2)).map Prod.snd ∧
    ∃ p1 : ParserWithCaching,
      parseLexerMode pf p0 (render segs1) =
        some ({ ast := pf (render segs1), addresses := segsAddrs segs1 }, p1) ∧
      parseLexerMode pf p1 (render segs2) =
        some ({ ast := pf (render segs1), addresses := segsAddrs segs2 },
          { p1 with statsCacheUsed := p1.statsCacheUsed + 1 }) := by
  have e1 : computeHashAndExtractAddressesFromLexer (render segs1) =
      some (segsAddrs segs1, skelHash segs1) :=
    scanAux_render segs1 h1 (render segs1).length (le_refl _)
  have e2 : computeHashAndExtractAddressesFromLexer (render segs2) =
      some (segsAddrs segs2, skelHash segs1) := by
    rw [computeHashAndExtractAddressesFromLexer,
      scanAux_render segs2 h2 (render segs2).length (le_refl _),
      sameSkeleton_skelHash segs1 segs2 hs]
  constructor
  · rw [e1, e2]
    rfl
  · exact c2_amended_hash_maps_to_template pf p0 (render segs1) (render segs2)
      (segsAddrs segs1) (segsAddrs segs2) (skelHash segs1) e1 e2 hmiss

theorem c4_cache_hit_on_relative_variants_witness :
    (computeHashAndExtractAddressesFromLexer
        (render [Seg.lit '=', Seg.cell ['A', '1'] none, Seg.lit '+', Seg.lit '2'])).map Prod.snd =
      (computeHashAndExtractAddressesFromLexer
        (render [Seg.lit '=', Seg.cell ['B', '5'] none, Seg.lit '+', Seg.lit '2'])).map Prod.snd ∧
    ∃ p1 : ParserWithCaching,
      parseLexerMode parseFormulaModel ⟨[], 0⟩
          (render [Seg.lit '=', Seg.cell ['A', '1'] none, Seg.lit '+', Seg.lit '2']) =
        some
          (⟨parseFormulaModel (render [Seg.lit '=', Seg.cell ['A', '1'] none, Seg.lit '+', Seg.lit '2']),
            segsAddrs [Seg.lit '=', Seg.cell ['A', '1'] none, Seg.lit '+', Seg.lit '2']⟩,
            p1) ∧
      parseLexerMode parseFormulaModel p1
          (render [Seg.lit '=', Seg.cell ['B', '5'] none, Seg.lit '+', Seg.lit '2']) =
        some
          (⟨parseFormulaModel (render [Seg.lit '=', Seg.cell ['A', '1'] none, Seg.lit '+', Seg.lit '2']),
            segsAddrs [Seg.lit '=', Seg.cell ['B', '5'] none, Seg.lit '+', Seg.lit '2']⟩,
            { p1 with statsCacheUsed := p1.statsCacheUsed + 1 }) :=
  c4_cache_hit_on_relative_variants parseFormulaModel
    [Seg.lit '=', Seg.cell ['A', '1'] none, Seg.lit '+', Seg.lit '2']
    [Seg.lit '=', Seg.cell ['B', '5'] none, Seg.lit '+', Seg.lit '2']
    ⟨[], 0⟩ (by decide) (by decide) (by decide) rfl

/-- C9: in the lexer-free hashing mode the content of a quoted string is
copied character for character into the hash (no placeholder is substituted
inside it and it contributes no extracted address), and a backslash
immediately before a closing quote continues the string, the scan resuming
until an unescaped closing quote is found, after which the remainder of the
formula is scanned normally. -/
theorem c9_quoted_string_verbatim (a b : Str) (segs : List Seg)
    (ha : a.all (fun c => c != '\'') = true)
    (hb : b.all (fun c => c != '\'') = true)
    (hbl : b.getLastD '\'' ≠ '\\')
    (hal : alignedSegs segs = true) :
    computeHashAndExtractAddressesFromLexer
        ('\'' :: (a ++ '\\' :: '\'' :: (b ++ '\'' :: render segs))) =
      some (segsAddrs segs,
        '\'' :: (a ++ '\\' :: '\'' :: (b ++ '\'' :: skelHash segs))) := by
  rw [computeHashAndExtractAddressesFromLexer]
  have hlen : ('\'' :: (a ++ '\\' :: '\'' :: (b ++ '\'' :: render segs))).length =
      (a ++ '\\' :: '\'' :: (b ++ '\'' :: render segs)).length + 1 := by
    simp
  rw [hlen, scanAux, if_pos rfl]
  rw [stringLoop_continue (a ++ '\\' :: '\'' :: (b ++ '\'' :: render segs)).length
    '\'' a b (render segs)
    (by simp only [List.length_append, List.length_cons]; omega) ha hb hbl]
  have hrec := scanAux_render segs hal
    (a.length + (b.length + ((render segs).length + 1) + 1 + 1)) (by omega)
  simp [hrec]

theorem c9_quoted_string_verbatim_witness :
    computeHashAndExtractAddressesFromLexer
        ('\'' :: (['a'] ++ '\\' :: '\'' :: (['b'] ++ '\'' ::
          render [Seg.lit '+', Seg.cell ['C', '3'] none]))) =
      some (segsAddrs [Seg.lit '+', Seg.cell ['C', '3'] none],
        '\'' :: (['a'] ++ '\\' :: '\'' :: (['b'] ++ '\'' ::
          skelHash [Seg.lit '+', Seg.cell ['C', '3'] none]))) :=
  c9_quoted_string_verbatim ['a'] ['b'] [Seg.lit '+', Seg.cell ['C', '3'] none]
    (by decide) (by decide) (by decide) (by decide)

/-! ## The engine data model (HandsOnEngine.ts and its collaborators) -/

/-- A cell address: sheet id, column, row (Cell.ts SimpleCellAddress). -/
structure SimpleCellAddress where
  sheet : Nat
  col : Nat
  row : Nat
deriving DecidableEq

/-- An axis-aligned rectangle of addresses in one sheet (AbsoluteCellRange). -/
structure AbsRange where
  sheet : Nat
  startCol : Nat
  startRow : Nat
  endCol : Nat
  endRow : Nat
deriving DecidableEq

/-- AbsoluteCellRange.spanFrom: the rectangle of the given width and height
anchored at the corner. -/
def AbsRange.spanFrom (corner : SimpleCellAddress) (width height : Nat) : AbsRange :=
  ⟨corner.sheet, corner.col, corner.row, corner.col + width - 1, corner.row + height - 1⟩

/-- Rectangle intersection on the same sheet. -/
def AbsRange.overlaps (r1 r2 : AbsRange) : Bool :=
  r1.sheet == r2.sheet && r1.startCol ≤ r2.endCol && r2.startCol ≤ r1.endCol &&
    r1.startRow ≤ r2.endRow && r2.startRow ≤ r1.endRow

/-- Membership of an address in a rectangle. -/
def AbsRange.containsAddr (r : AbsRange) (a : SimpleCellAddress) : Bool :=
  r.sheet == a.sheet && r.startCol ≤ a.col && a.col ≤ r.endCol &&
    r.startRow ≤ a.row && a.row ≤ r.endRow

/-- The addresses inside a rectangle, row-major. -/
def AbsRange.addressList (r : AbsRange) : List SimpleCellAddress :=
  (List.range (r.endRow + 1 - r.startRow)).flatMap (fun i =>
    (List.range (r.endCol + 1 - r.startCol)).map (fun j =>
      ⟨r.sheet, r.startCol + j, r.startRow + i⟩))

/-- The rectangle translated by the move deltas (onto the target sheet). -/
def AbsRange.translate (r : AbsRange) (toRight toBottom : Int) (toSheet : Nat) : AbsRange :=
  ⟨toSheet, (Int.ofNat r.startCol + toRight).toNat, (Int.ofNat r.startRow + toBottom).toNat,
    (Int.ofNat r.endCol + toRight).toNat, (Int.ofNat r.endRow + toBottom).toNat⟩

/-- An address translated by the move deltas. -/
def moveAddr (a : SimpleCellAddress) (toRight toBottom : Int) (toSheet : Nat) :
    SimpleCellAddress :=
  ⟨toSheet, (Int.ofNat a.col + toRight).toNat, (Int.ofNat a.row + toBottom).toNat⟩

/-- A span of rows of one sheet (RowsSpan.ts). -/
structure RowsSpan where
  sheet : Nat
  rowStart : Nat
  rowEnd : Nat
deriving DecidableEq

/-- RowsSpan.fromNumberOfRows. -/
def RowsSpan.fromNumberOfRows (sheet row numberOfRows : Nat) : RowsSpan :=
  ⟨sheet, row, row + numberOfRows - 1⟩

/-- A span of columns of one sheet (ColumnsSpan.ts). -/
structure ColumnsSpan where
  sheet : Nat
  columnStart : Nat
  columnEnd : Nat
deriving DecidableEq

/-- ColumnsSpan.fromNumberOfColumns. -/
def ColumnsSpan.fromNumberOfColumns (sheet col numberOfCols : Nat) : ColumnsSpan :=
  ⟨sheet, col, col + numberOfCols - 1⟩

/-- Modelled from the spec: the JavaScript builtin Number(string) coercion, as
used by setCellContent through isNaN(Number(text)).  The model covers the
decimal forms: optional surrounding whitespace, an optional sign, integer
digits with an optional fraction part (at least one digit overall); the empty
or all-whitespace string coerces to 0.  Hexadecimal, exponent and Infinity
forms of the builtin are outside the model.  A none result is NaN. -/
def jsNumber (text : Str) : Option ℚ :=
  let isWsCh : Char → Bool := fun c => c = ' ' || c = '\t' || c = '\n' || c = '\r'
  let digitsVal : Str → Nat := fun ds =>
    ds.foldl (fun acc c => acc * 10 + (c.toNat - '0'.toNat)) 0
  let body : Str → Option ℚ := fun cs =>
    let ip := cs.takeWhile isDigitCh
    let rest := cs.dropWhile isDigitCh
    match rest with
    | [] => if ip.isEmpty then none else some (digitsVal ip)
    | '.' :: fr =>
      let fp := fr.takeWhile isDigitCh
      let rest2 := fr.dropWhile isDigitCh
      if rest2.isEmpty then
        if ip.isEmpty && fp.isEmpty then none
        else some ((digitsVal ip : ℚ) + (digitsVal fp : ℚ) / ((10 : ℚ) ^ fp.length))
      else none
    | _ => none
  let cs := ((text.dropWhile isWsCh).reverse.dropWhile isWsCh).reverse
  match cs with
  | [] => some 0
  | '-' :: r => (body r).map (fun q => -q)
  | '+' :: r => body r
  | r => body r

/-- Modelled from the spec: isMatrix of the parser module (not under src); a
cell text of the array-formula form, braces around an equals formula. -/
def isMatrix (text : Str) : Bool :=
  match text with
  | c1 :: c2 :: rest =>
    c1 = '{' && c2 = '=' &&
      (match (c2 :: rest).getLast? with
       | some c => c = '}'
       | none => false)
  | _ => false

/-- A computed cell value of the spec's value domain. -/
inductive CellValue where
  | numV (q : ℚ)
  | strV (s : Str)
  | boolV (b : Bool)
  | errV (k : ErrKind)
deriving DecidableEq

/-- The vertex variants of the dependency graph (DependencyGraph, not under
src; the variants and their payloads follow the spec's data model).  A matrix
vertex either holds an array-formula AST (isFormula) or a numeric payload kept
as per-address entries. -/
inductive VertexData where
  | emptyVertex
  | valueVertex (v : CellValue)
  | formulaVertex (ast : TemplateAst) (addresses : List Str)
  | matrixVertex (formula : Option TemplateAst) (range : AbsRange)
      (entries : List (SimpleCellAddress × ℚ))

/-- The kinds of deferred structural transformations. -/
inductive TransKind where
  | addRowsK | removeRowsK | addColumnsK | removeColumnsK | moveCellsK
deriving DecidableEq

/-- A transformation record of the lazy service: kind plus span or move target. -/
inductive Transformation where
  | addRowsT (sp : RowsSpan)
  | removeRowsT (sp : RowsSpan)
  | addColumnsT (sp : ColumnsSpan)
  | removeColumnsT (sp : ColumnsSpan)
  | moveCellsT (source : AbsRange) (toRight toBottom : Int) (toSheet : Nat)
deriving DecidableEq

/-- The kind of a transformation record. -/
def Transformation.kind : Transformation → TransKind
  | .addRowsT _ => .addRowsK
  | .removeRowsT _ => .removeRowsK
  | .addColumnsT _ => .addColumnsK
  | .removeColumnsT _ => .removeColumnsK
  | .moveCellsT _ _ _ _ => .moveCellsK

/-- Modelled from the spec: LazilyTransformingAstService (not under src) keeps
a queue of versioned transformation records; each addX call appends the record
tagged with the next monotonic version. -/
structure LazyService where
  transformations : List (Nat × Transformation)
  version : Nat
deriving DecidableEq

/-- Append one record with the next version. -/
def LazyService.addTransformation (s : LazyService) (t : Transformation) : LazyService :=
  ⟨s.transformations ++ [(s.version + 1, t)], s.version + 1⟩

/-- The observable steps of an engine operation, in execution order. -/
inductive EngineEvent where
  | graphAddRows
  | graphRemoveRows
  | graphAddColumns
  | graphRemoveColumns
  | graphMoveCells
  | columnIndexEvent
  | transformAstsEvent (k : TransKind)
  | enqueueEvent (k : TransKind)
  | evaluatorRunEvent
deriving DecidableEq

/-- The engine state: the address mapping (address to vertex id), the vertex
store (id to vertex payload), the dirty set of recently changed vertex ids,
the lazy transform service, the log of evaluator runs (each entry the seed
list of one run), the log of observable operation steps, and the parser
instance.  Vertex identity is the id: mutating a vertex in place keeps its id,
replacing it allocates a fresh id. -/
structure EngineSt where
  vertexOf : List (SimpleCellAddress × Nat)
  vertexData : List (Nat × VertexData)
  nextVertexId : Nat
  recentlyChanged : List Nat
  lazyService : LazyService
  evaluatorRuns : List (List Nat)
  opLog : List EngineEvent
  parser : ParserWithCaching

/-- The vertex id at an address. -/
def getVertexId (st : EngineSt) (a : SimpleCellAddress) : Option Nat :=
  (st.vertexOf.find? (fun kv => kv.1 == a)).map (fun kv => kv.2)

/-- The payload of a vertex id. -/
def getVertexData (st : EngineSt) (id : Nat) : Option VertexData :=
  (st.vertexData.find? (fun kv => kv.1 == id)).map (fun kv => kv.2)

/-- Modelled from the spec: DependencyGraph.getCell / AddressMapping lookup -
the vertex at an address, none when absent. -/
def getCell (st : EngineSt) (a : SimpleCellAddress) : Option VertexData :=
  match getVertexId st a with
  | none => none
  | some id => getVertexData st id

/-- Replace the payload stored under an id, keeping every other binding. -/
def setAssoc (l : List (Nat × VertexData)) (id : Nat) (d : VertexData) :
    List (Nat × VertexData) :=
  l.map (fun kv => if kv.1 == id then (kv.1, d) else kv)

/-- Modelled from the spec: the common core of DependencyGraph.setFormulaToCell,
setValueToCell and setCellEmpty - mutate the vertex at the address to the new
variant, replacing the payload at the same id (allocating a fresh vertex when
the address was unmapped), and mark it recently changed.  Edge rewiring is
outside the modelled fragment; no claim concerns edges. -/
def setCellVertex (st : EngineSt) (a : SimpleCellAddress) (d : VertexData) : EngineSt :=
  match getVertexId st a with
  | some id =>
    { st with
        vertexData := setAssoc st.vertexData id d,
        recentlyChanged := st.recentlyChanged ++ [id] }
  | none =>
    { st with
        vertexOf := (a, st.nextVertexId) :: st.vertexOf,
        vertexData := (st.nextVertexId, d) :: st.vertexData,
        nextVertexId := st.nextVertexId + 1,
        recentlyChanged := st.recentlyChanged ++ [st.nextVertexId] }

/-- Modelled from the spec: DependencyGraph.setFormulaToCell. -/
def setFormulaToCell (st : EngineSt) (a : SimpleCellAddress) (ast : TemplateAst)
    (deps : List Str) : EngineSt :=
  setCellVertex st a (.formulaVertex ast deps)

/-- Modelled from the spec: DependencyGraph.setValueToCell. -/
def setValueToCell (st : EngineSt) (a : SimpleCellAddress) (v : CellValue) : EngineSt :=
  setCellVertex st a (.valueVertex v)

/-- Modelled from the spec: DependencyGraph.setCellEmpty. -/
def setCellEmpty (st : EngineSt) (a : SimpleCellAddress) : EngineSt :=
  setCellVertex st a .emptyVertex

/-- Modelled from the spec: MatrixMapping - whether a range intersects any
matrix vertex rectangle (used by ensureNoMatrixInRange). -/
def matrixIntersects (st : EngineSt) (r : AbsRange) : Bool :=
  st.vertexData.any (fun kv =>
    match kv.2 with
    | .matrixVertex _ mr _ => mr.overlaps r
    | _ => false)

/-- Whether an address holds a vertex other than Empty. -/
def cellOccupied (st : EngineSt) (a : SimpleCellAddress) : Bool :=
  match getCell st a with
  | none => false
  | some .emptyVertex => false
  | some _ => true

/-- Modelled from the spec: DependencyGraph.addNewMatrixVertex rejects when the
rectangle overlaps an existing matrix or a non-empty cell; otherwise it
installs the vertex over every address of its rectangle and marks it changed. -/
def addNewMatrixVertex (st : EngineSt) (formula : Option TemplateAst) (r : AbsRange) :
    EngineSt × Option String :=
  if matrixIntersects st r || r.addressList.any (cellOccupied st) then
    (st, some "It is not possible to add matrix in that place")
  else
    ({ st with
        vertexOf := r.addressList.map (fun a => (a, st.nextVertexId)) ++ st.vertexOf,
        vertexData := (st.nextVertexId, .matrixVertex formula r []) :: st.vertexData,
        nextVertexId := st.nextVertexId + 1,
        recentlyChanged := st.recentlyChanged ++ [st.nextVertexId] }, none)

/-- Modelled from the spec (numeric matrix coalescing design note):
MatrixVertex.setMatrixCellValue updates the numeric payload at one address of
the matrix in place. -/
def setMatrixCellValue (entries : List (SimpleCellAddress × ℚ))
    (a : SimpleCellAddress) (v : ℚ) : List (SimpleCellAddress × ℚ) :=
  if entries.any (fun kv => kv.1 == a) then
    entries.map (fun kv => if kv.1 == a then (kv.1, v) else kv)
  else
    entries ++ [(a, v)]

/-- Modelled from the spec: one Evaluator partial run over the given seed
vertices; value recomputation delegates to the function library and is outside
the modelled fragment, so the run is recorded with its seed list. -/
def evaluatorRunOn (st : EngineSt) (seeds : List Nat) : EngineSt :=
  { st with
      evaluatorRuns := st.evaluatorRuns ++ [seeds],
      opLog := st.opLog ++ [.evaluatorRunEvent] }

/-- Modelled from the spec: a JavaScript value as tested by an if guard; an
array object is always truthy, null and undefined are falsy. -/
inductive JSVal where
  | arrVal (l : List Nat)
  | nullVal
  | undefinedVal

/-- Truthiness of a JavaScript value under an if guard. -/
def jsTruthy : JSVal → Bool
  | .arrVal _ => true
  | .nullVal => false
  | .undefinedVal => false

/-- Modelled from the spec: the JavaScript builtin Array.from over an iterable
of vertex ids always constructs an array value (possibly empty). -/
def arrayFrom (l : List Nat) : JSVal :=
  .arrVal l

/-- The elements of an array value. -/
def jsArrElems : JSVal → List Nat
  | .arrVal l => l
  | _ => []

/-- Modelled from the spec: DependencyGraph.verticesToRecompute exposes the
dirty set. -/
def verticesToRecompute (st : EngineSt) : List Nat :=
  st.recentlyChanged

/-- Modelled from the spec: DependencyGraph.clearRecentlyChangedVertices
resets the dirty set. -/
def clearRecentlyChangedVertices (st : EngineSt) : EngineSt :=
  { st with recentlyChanged := [] }

/-! ## HandsOnEngine methods (HandsOnEngine.ts) -/

/-- recomputeIfDependencyGraphNeedsIt of HandsOnEngine.ts: Array.from over the
dirty set, unconditional clear, then the evaluator partial run guarded by the
truthiness of the array value. -/
def HandsOnEngine.recomputeIfDependencyGraphNeedsIt (st : EngineSt) : EngineSt :=
  let verticesToRecomputeFrom := arrayFrom (verticesToRecompute st)
  let st1 := clearRecentlyChangedVertices st
  if jsTruthy verticesToRecomputeFrom then
    evaluatorRunOn st1 (jsArrElems verticesToRecomputeFrom)
  else
    st1

/-- The numeric non-formula matrix vertex guard of setCellContent:
vertex instanceof MatrixVertex and not vertex.isFormula(). -/
def isNumericMatrixVertexData : Option VertexData → Bool
  | some (.matrixVertex none _ _) => true
  | _ => false

/-- The vertex instanceof MatrixVertex guard of setCellContent. -/
def isMatrixVertexData : Option VertexData → Bool
  | some (.matrixVertex _ _ _) => true
  | _ => false

/-- The third guard of setCellContent: a Formula, Value or Empty vertex, or an
absent (null) one. -/
def isPlainVertexData : Option VertexData → Bool
  | some (.formulaVertex _ _) => true
  | some (.valueVertex _) => true
  | some .emptyVertex => true
  | none => true
  | some (.matrixVertex _ _ _) => false

/-- Modelled from the spec: buildMatrixVertex (GraphBuilder.ts, not under src)
builds a Matrix vertex for an array-formula AST anchored at the address; the
matrix size comes from the function library's shape information, which is
outside the modelled fragment, so the model gives every array formula a 1 by 1
rectangle at the anchor and always constructs the vertex (the source throws
when it cannot). -/
def buildMatrixVertexModel (ast : TemplateAst) (a : SimpleCellAddress) :
    Option TemplateAst × AbsRange :=
  (some ast, AbsRange.spanFrom a 1 1)

/-- setCellContent of HandsOnEngine.ts.  The second component none is normal
completion; some e is a thrown Error with message e, the state being exactly
what was mutated before the throw.  The four branches in source order: a
numeric non-formula matrix vertex with numeric content is updated in place; a
non-matrix vertex with array-formula content gets a new matrix vertex; a
Formula, Value, Empty or absent vertex dispatches on formula / empty / numeric
/ string content and then recomputes from the dirty set; anything else throws
the 'Illegal operation' Error. -/
def HandsOnEngine.setCellContent (st : EngineSt) (address : SimpleCellAddress)
    (newCellContent : Str) : EngineSt × Option String :=
  let vertex := getCell st address
  if isNumericMatrixVertexData vertex && (jsNumber newCellContent).isSome then
    match getVertexId st address, vertex, jsNumber newCellContent with
    | some id, some (.matrixVertex mf r entries), some q =>
      let st1 := { st with
        vertexData := setAssoc st.vertexData id
          (.matrixVertex mf r (setMatrixCellValue entries address q)) }
      (evaluatorRunOn st1 [id], none)
    | _, _, _ =>
      -- a vertex is always backed by an id in the address mapping
      (st, some "Illegal operation")
  else if !(isMatrixVertexData vertex) && isMatrix newCellContent then
    let matrixFormula := (newCellContent.drop 1).dropLast
    match parseLexerMode parseFormulaModel st.parser matrixFormula with
    | none => (st, some "Unexpected parse error")
    | some (parseResult, parser2) =>
      let st1 := { st with parser := parser2 }
      let built := buildMatrixVertexModel parseResult.ast address
      match addNewMatrixVertex st1 built.1 built.2 with
      | (st2, some e) => (st2, some e)
      | (st2, none) =>
        -- processCellDependencies installs edges, outside the modelled fragment
        (evaluatorRunOn st2 [st1.nextVertexId], none)
  else if isPlainVertexData vertex then
    let st1 :=
      if isFormula newCellContent then
        match parseLexerMode parseFormulaModel st.parser newCellContent with
        | none => none
        | some (parseResult, parser2) =>
          some (setFormulaToCell { st with parser := parser2 } address
            parseResult.ast parseResult.addresses)
      else if newCellContent = [] then
        -- columnIndex.remove is outside the modelled fragment
        some (setCellEmpty st address)
      else
        match jsNumber newCellContent with
        | some q => some (setValueToCell st address (.numV q))
        | none => some (setValueToCell st address (.strV newCellContent))
    match st1 with
    | none => (st, some "Unexpected parse error")
    | some st2 =>
      let verticesToRecomputeFrom := verticesToRecompute st2
      let st3 := clearRecentlyChangedVertices st2
      (evaluatorRunOn st3 verticesToRecomputeFrom, none)
  else
    (st, some "Illegal operation")

/-- Modelled from the spec: DependencyGraph.addRows shifts every address of
the sheet at or below the span down by the span height; range and matrix
rectangle updates and dirty marking of structure-sensitive formulas are
outside the modelled fragment.  The step is recorded in the operation log. -/
def graphAddRows (st : EngineSt) (sp : RowsSpan) : EngineSt :=
  let count := sp.rowEnd + 1 - sp.rowStart
  { st with
      vertexOf := st.vertexOf.map (fun kv =>
        if kv.1.sheet == sp.sheet && sp.rowStart ≤ kv.1.row then
          (⟨kv.1.sheet, kv.1.col, kv.1.row + count⟩, kv.2)
        else kv),
      opLog := st.opLog ++ [.graphAddRows] }

/-- Modelled from the spec: DependencyGraph.removeRows drops the cells of the
span and shifts the rows below it up. -/
def graphRemoveRows (st : EngineSt) (sp : RowsSpan) : EngineSt :=
  let count := sp.rowEnd + 1 - sp.rowStart
  { st with
      vertexOf := (st.vertexOf.filter (fun kv =>
        !(kv.1.sheet == sp.sheet && sp.rowStart ≤ kv.1.row && kv.1.row ≤ sp.rowEnd))).map
        (fun kv =>
          if kv.1.sheet == sp.sheet && sp.rowEnd < kv.1.row then
            (⟨kv.1.sheet, kv.1.col, kv.1.row - count⟩, kv.2)
          else kv),
      opLog := st.opLog ++ [.graphRemoveRows] }

/-- Modelled from the spec: DependencyGraph.addColumns, symmetric to addRows
on the column axis. -/
def graphAddColumns (st : EngineSt) (sp : ColumnsSpan) : EngineSt :=
  let count := sp.columnEnd + 1 - sp.columnStart
  { st with
      vertexOf := st.vertexOf.map (fun kv =>
        if kv.1.sheet == sp.sheet && sp.columnStart ≤ kv.1.col then
          (⟨kv.1.sheet, kv.1.col + count, kv.1.row⟩, kv.2)
        else kv),
      opLog := st.opLog ++ [.graphAddColumns] }

/-- Modelled from the spec: DependencyGraph.removeColumns, symmetric to
removeRows on the column axis. -/
def graphRemoveColumns (st : EngineSt) (sp : ColumnsSpan) : EngineSt :=
  let count := sp.columnEnd + 1 - sp.columnStart
  { st with
      vertexOf := (st.vertexOf.filter (fun kv =>
        !(kv.1.sheet == sp.sheet && sp.columnStart ≤ kv.1.col && kv.1.col ≤ sp.columnEnd))).map
        (fun kv =>
          if kv.1.sheet == sp.sheet && sp.columnEnd < kv.1.col then
            (⟨kv.1.sheet, kv.1.col - count, kv.1.row⟩, kv.2)
          else kv),
      opLog := st.opLog ++ [.graphRemoveColumns] }

/-- Modelled from the spec: DependencyGraph.moveCells relocates the vertices of
the source rectangle by the move deltas, overwriting what was at the
destination; range adjustment and edge rewiring are outside the modelled
fragment. -/
def graphMoveCells (st : EngineSt) (source : AbsRange) (toRight toBottom : Int)
    (toSheet : Nat) : EngineSt :=
  let dest := source.translate toRight toBottom toSheet
  { st with
      vertexOf := (st.vertexOf.filter (fun kv =>
        !(dest.containsAddr kv.1 && !(source.containsAddr kv.1)))).map
        (fun kv =>
          if source.containsAddr kv.1 then
            (moveAddr kv.1 toRight toBottom toSheet, kv.2)
          else kv),
      opLog := st.opLog ++ [.graphMoveCells] }

/-- Modelled from the spec: the eager AST pass of one dependency transformer
(dependencyTransformers, not under src) rewrites affected cached ASTs; the
address arithmetic inside ASTs is outside the modelled fragment, so the pass
is recorded in the operation log. -/
def transformAsts (st : EngineSt) (k : TransKind) : EngineSt :=
  { st with opLog := st.opLog ++ [.transformAstsEvent k] }

/-- Enqueue one versioned transformation record in the lazy service and record
the step. -/
def enqueueTransformation (st : EngineSt) (t : Transformation) : EngineSt :=
  { st with
      lazyService := st.lazyService.addTransformation t,
      opLog := st.opLog ++ [.enqueueEvent t.kind] }

/-- addRows of HandsOnEngine.ts: the dependency-graph update, then (inside one
stats measure) the eager AST transform followed by enqueueing the lazy record,
then the recompute step. -/
def HandsOnEngine.addRows (st : EngineSt) (sheet row numberOfRowsToAdd : Nat) : EngineSt :=
  let addedRows := RowsSpan.fromNumberOfRows sheet row numberOfRowsToAdd
  let st1 := graphAddRows st addedRows
  let st2 := transformAsts st1 .addRowsK
  let st3 := enqueueTransformation st2 (.addRowsT addedRows)
  HandsOnEngine.recomputeIfDependencyGraphNeedsIt st3

/-- removeRows of HandsOnEngine.ts. -/
def HandsOnEngine.removeRows (st : EngineSt) (sheet rowStart rowEnd : Nat) : EngineSt :=
  let removedRows : RowsSpan := ⟨sheet, rowStart, rowEnd⟩
  let st1 := graphRemoveRows st removedRows
  let st2 := transformAsts st1 .removeRowsK
  let st3 := enqueueTransformation st2 (.removeRowsT removedRows)
  HandsOnEngine.recomputeIfDependencyGraphNeedsIt st3

/-- addColumns of HandsOnEngine.ts; the columnIndex.addColumns call is
recorded as a step (the index itself is outside the modelled fragment). -/
def HandsOnEngine.addColumns (st : EngineSt) (sheet col numberOfCols : Nat) : EngineSt :=
  let addedColumns := ColumnsSpan.fromNumberOfColumns sheet col numberOfCols
  let st1 := graphAddColumns st addedColumns
  let st2 := { st1 with opLog := st1.opLog ++ [.columnIndexEvent] }
  let st3 := transformAsts st2 .addColumnsK
  let st4 := enqueueTransformation st3 (.addColumnsT addedColumns)
  HandsOnEngine.recomputeIfDependencyGraphNeedsIt st4

/-- removeColumns of HandsOnEngine.ts. -/
def HandsOnEngine.removeColumns (st : EngineSt) (sheet columnStart columnEnd : Nat) :
    EngineSt :=
  let removedColumns : ColumnsSpan := ⟨sheet, columnStart, columnEnd⟩
  let st1 := graphRemoveColumns st removedColumns
  let st2 := { st1 with opLog := st1.opLog ++ [.columnIndexEvent] }
  let st3 := transformAsts st2 .removeColumnsK
  let st4 := enqueueTransformation st3 (.removeColumnsT removedColumns)
  HandsOnEngine.recomputeIfDependencyGraphNeedsIt st4

/-- moveCells of HandsOnEngine.ts: ensureNoMatrixInRange on the source and
target rectangles (modelled from the spec: the DependencyGraph check throws
when the rectangle intersects a matrix), then the eager AST transform, then
the lazy record enqueue, then the dependency-graph cell move, then the
recompute step.  A some component is the thrown Error, the state unchanged
because both checks precede every mutation. -/
def HandsOnEngine.moveCells (st : EngineSt) (sourceLeftCorner : SimpleCellAddress)
    (width height : Nat) (destinationLeftCorner : SimpleCellAddress) :
    EngineSt × Option String :=
  let sourceRange := AbsRange.spanFrom sourceLeftCorner width height
  let targetRange := AbsRange.spanFrom destinationLeftCorner width height
  if matrixIntersects st sourceRange then
    (st, some "It is not possible to move matrix")
  else if matrixIntersects st targetRange then
    (st, some "It is not possible to move matrix")
  else
    let toRight := Int.ofNat destinationLeftCorner.col - Int.ofNat sourceLeftCorner.col
    let toBottom := Int.ofNat destinationLeftCorner.row - Int.ofNat sourceLeftCorner.row
    let toSheet := destinationLeftCorner.sheet
    let st1 := transformAsts st .moveCellsK
    let st2 := enqueueTransformation st1 (.moveCellsT sourceRange toRight toBottom toSheet)
    let st3 := graphMoveCells st2 sourceRange toRight toBottom toSheet
    (HandsOnEngine.recomputeIfDependencyGraphNeedsIt st3, none)

/-! ## Helper lemmas about the engine model -/

/-- Sample: the empty engine state. -/
def emptyEngineSt : EngineSt :=
  ⟨[], [], 0, [], ⟨[], 0⟩, [], [], ⟨[], 0⟩⟩

/-- Sample: an engine state holding one numeric 1 by 1 matrix vertex at sheet 0
cell A1 with payload 1. -/
def matrixEngineSt : EngineSt :=
  ⟨[(⟨0, 0, 0⟩, 0)], [(0, .matrixVertex none ⟨0, 0, 0, 0, 0⟩ [(⟨0, 0, 0⟩, 1)])],
    1, [], ⟨[], 0⟩, [], [], ⟨[], 0⟩⟩

/-- Sample: an engine state holding one numeric Value vertex at sheet 0 cell
A1 with value 3. -/
def valueEngineSt : EngineSt :=
  ⟨[(⟨0, 0, 0⟩, 0)], [(0, .valueVertex (.numV 3))], 1, [], ⟨[], 0⟩, [], [], ⟨[], 0⟩⟩

theorem isPlainVertexData_not_matrix (v : Option VertexData)
    (h : isPlainVertexData v = true) :
    isMatrixVertexData v = false ∧ isNumericMatrixVertexData v = false := by
  cases v with
  | none => exact ⟨rfl, rfl⟩
  | some d =>
    cases d with
    | emptyVertex => exact ⟨rfl, rfl⟩
    | valueVertex v2 => exact ⟨rfl, rfl⟩
    | formulaVertex ast deps => exact ⟨rfl, rfl⟩
    | matrixVertex f r e => exact absurd h (by simp [isPlainVertexData])

theorem isFormula_isMatrix_false (text : Str) (h : isFormula text = true) :
    isMatrix text = false := by
  cases text with
  | nil => simp [isFormula] at h
  | cons c r =>
    simp only [isFormula, decide_eq_true_eq] at h
    subst h
    cases r with
    | nil => rfl
    | cons c2 r2 => simp [isMatrix]

theorem find_setAssoc (l : List (Nat × VertexData)) (id : Nat) (d : VertexData)
    (h : (l.find? (fun kv => kv.1 == id)).isSome = true) :
    (setAssoc l id d).find? (fun kv => kv.1 == id) = some (id, d) := by
  induction l with
  | nil => simp at h
  | cons kv rest ih =>
    by_cases hk : kv.1 = id
    · simp [setAssoc, List.find?_cons, hk]
    · have hk2 : (kv.1 == id) = false := by simp [hk]
      simp only [List.find?_cons, hk2, Bool.false_eq_true, if_false] at h
      simp only [setAssoc, List.map_cons, hk2, Bool.false_eq_true, if_false,
        List.find?_cons]
      exact ih h

/-- Setting a cell vertex makes it the vertex found at the address (the graph
owns every vertex the address mapping points at, the hwf hypothesis). -/
theorem getCell_setCellVertex (st : EngineSt) (a : SimpleCellAddress) (d : VertexData)
    (hwf : ∀ id, getVertexId st a = some id → (getVertexData st id).isSome = true) :
    getCell (setCellVertex st a d) a = some d := by
  cases hid : getVertexId st a with
  | none =>
    have hid2 : Option.map (fun kv => kv.2) (List.find? (fun kv => kv.1 == a) st.vertexOf) =
        none := hid
    unfold setCellVertex getCell getVertexId getVertexData
    simp [hid2, List.find?_cons]
  | some id =>
    have hds := hwf id hid
    have hfind : (st.vertexData.find? (fun kv => kv.1 == id)).isSome = true := by
      cases hv : st.vertexData.find? (fun kv => kv.1 == id) with
      | none => simp [getVertexData, hv] at hds
      | some kv => rfl
    have hset := find_setAssoc st.vertexData id d hfind
    have hid2 : Option.map (fun kv => kv.2) (List.find? (fun kv => kv.1 == a) st.vertexOf) =
        some id := hid
    unfold setCellVertex getCell getVertexId getVertexData
    simp [hid2, hset]

/-- The evaluator run does not touch the address mapping or the vertex store. -/
theorem getCell_evaluatorRunOn (st : EngineSt) (seeds : List Nat) (a : SimpleCellAddress) :
    getCell (evaluatorRunOn st seeds) a = getCell st a := rfl

/-- The dirty-set clear does not touch the address mapping or the vertex store. -/
theorem getCell_clear (st : EngineSt) (a : SimpleCellAddress) :
    getCell (clearRecentlyChangedVertices st) a = getCell st a := rfl

theorem addressList_span_one (a : SimpleCellAddress) :
    (AbsRange.spanFrom a 1 1).addressList = [a] := by
  have h1 : (AbsRange.spanFrom a 1 1).endRow + 1 - (AbsRange.spanFrom a 1 1).startRow = 1 := by
    simp [AbsRange.spanFrom]
  have h2 : (AbsRange.spanFrom a 1 1).endCol + 1 - (AbsRange.spanFrom a 1 1).startCol = 1 := by
    simp [AbsRange.spanFrom]
  unfold AbsRange.addressList
  rw [h1, h2, show List.range 1 = [0] from rfl]
  simp [AbsRange.spanFrom]

/-! ## Claims about the engine -/

/-- C10: every call to recomputeIfDependencyGraphNeedsIt unconditionally
clears the dirty set and unconditionally invokes the evaluator run - the
guard on verticesToRecomputeFrom never skips the run because Array.from always
yields an array value, which is truthy - so after the call the dirty set is
empty and exactly one more evaluator run has happened, even when no vertex
needed recomputation. -/
theorem c10_recompute_clears_and_always_runs (st : EngineSt) :
    jsTruthy (arrayFrom (verticesToRecompute st)) = true ∧
    (HandsOnEngine.recomputeIfDependencyGraphNeedsIt st).recentlyChanged = [] ∧
    (HandsOnEngine.recomputeIfDependencyGraphNeedsIt st).evaluatorRuns =
      st.evaluatorRuns ++ [st.recentlyChanged] := by
  refine ⟨rfl, ?_, ?_⟩ <;>
    simp [HandsOnEngine.recomputeIfDependencyGraphNeedsIt, clearRecentlyChangedVertices,
      evaluatorRunOn, verticesToRecompute, arrayFrom, jsTruthy, jsArrElems]

/-- C7: a moveCells call whose source rectangle or destination rectangle
overlaps a matrix vertex fails before any mutation: the returned state is the
input state unchanged - no AST transformation step, no enqueued lazy record,
no graph cell move, no evaluator run. -/
theorem c7_move_cells_fails_before_mutation (st : EngineSt)
    (src dest : SimpleCellAddress) (w h : Nat)
    (hover : matrixIntersects st (AbsRange.spanFrom src w h) = true ∨
      matrixIntersects st (AbsRange.spanFrom dest w h) = true) :
    HandsOnEngine.moveCells st src w h dest =
      (st, some "It is not possible to move matrix") := by
  unfold HandsOnEngine.moveCells
  rcases hover with h1 | h1
  · simp [h1]
  · by_cases h2 : matrixIntersects st (AbsRange.spanFrom src w h) = true
    · simp [h2]
    · simp [h1, h2]

theorem c7_move_cells_fails_before_mutation_witness :
    HandsOnEngine.moveCells matrixEngineSt ⟨0, 0, 0⟩ 1 1 ⟨0, 5, 5⟩ =
      (matrixEngineSt, some "It is not possible to move matrix") :=
  c7_move_cells_fails_before_mutation matrixEngineSt ⟨0, 0, 0⟩ ⟨0, 5, 5⟩ 1 1
    (Or.inl (by decide))

/-- C8 counterexample: for moveCells the dependency-graph cell move is applied
after the versioned transformation record is enqueued, so the claim that the
eager graph update precedes the enqueue for every structural operation fails
on this one. -/
theorem c8_move_order_counterexample :
    (HandsOnEngine.moveCells emptyEngineSt ⟨0, 0, 0⟩ 1 1 ⟨0, 1, 0⟩).1.opLog =
      [.transformAstsEvent .moveCellsK, .enqueueEvent .moveCellsK, .graphMoveCells,
        .evaluatorRunEvent] ∧
    List.indexOf (EngineEvent.enqueueEvent TransKind.moveCellsK)
        ((HandsOnEngine.moveCells emptyEngineSt ⟨0, 0, 0⟩ 1 1 ⟨0, 1, 0⟩).1.opLog) <
      List.indexOf EngineEvent.graphMoveCells
        ((HandsOnEngine.moveCells emptyEngineSt ⟨0, 0, 0⟩ 1 1 ⟨0, 1, 0⟩).1.opLog) := by
  refine ⟨rfl, ?_⟩
  rw [show (HandsOnEngine.moveCells emptyEngineSt ⟨0, 0, 0⟩ 1 1 ⟨0, 1, 0⟩).1.opLog =
    [.transformAstsEvent .moveCellsK, .enqueueEvent .moveCellsK, .graphMoveCells,
      .evaluatorRunEvent] from rfl]
  decide

/-- C8 amended: for addRows, removeRows, addColumns and removeColumns the
eager dependency-graph update (and the column index update) precedes the
eager AST transform, which precedes the enqueue of the versioned record; for
moveCells the eager AST transform precedes the enqueue, but the
dependency-graph cell move is applied only after the record is enqueued. -/
theorem c8_amended_eager_graph_before_enqueue (st : EngineSt)
    (sheet row n col rs re cs ce : Nat)
    (src dest : SimpleCellAddress) (w h : Nat)
    (hs : matrixIntersects st (AbsRange.spanFrom src w h) = false)
    (ht : matrixIntersects st (AbsRange.spanFrom dest w h) = false) :
    (HandsOnEngine.addRows st sheet row n).opLog =
      st.opLog ++ [.graphAddRows, .transformAstsEvent .addRowsK,
        .enqueueEvent .addRowsK, .evaluatorRunEvent] ∧
    (HandsOnEngine.removeRows st sheet rs re).opLog =
      st.opLog ++ [.graphRemoveRows, .transformAstsEvent .removeRowsK,
        .enqueueEvent .removeRowsK, .evaluatorRunEvent] ∧
    (HandsOnEngine.addColumns st sheet col n).opLog =
      st.opLog ++ [.graphAddColumns, .columnIndexEvent, .transformAstsEvent .addColumnsK,
        .enqueueEvent .addColumnsK, .evaluatorRunEvent] ∧
    (HandsOnEngine.removeColumns st sheet cs ce).opLog =
      st.opLog ++ [.graphRemoveColumns, .columnIndexEvent,
        .transformAstsEvent .removeColumnsK, .enqueueEvent .removeColumnsK,
        .evaluatorRunEvent] ∧
    (HandsOnEngine.moveCells st src w h dest).1.opLog =
      st.opLog ++ [.transformAstsEvent .moveCellsK, .enqueueEvent .moveCellsK,
        .graphMoveCells, .evaluatorRunEvent] := by
  refine ⟨?_, ?_, ?_, ?_, ?_⟩
  · simp [HandsOnEngine.addRows, graphAddRows, transformAsts, enqueueTransformation,
      HandsOnEngine.recomputeIfDependencyGraphNeedsIt, evaluatorRunOn,
      clearRecentlyChangedVertices, jsTruthy, arrayFrom, Transformation.kind]
  · simp [HandsOnEngine.removeRows, graphRemoveRows, transformAsts, enqueueTransformation,
      HandsOnEngine.recomputeIfDependencyGraphNeedsIt, evaluatorRunOn,
      clearRecentlyChangedVertices, jsTruthy, arrayFrom, Transformation.kind]
  · simp [HandsOnEngine.addColumns, graphAddColumns, transformAsts, enqueueTransformation,
      HandsOnEngine.recomputeIfDependencyGraphNeedsIt, evaluatorRunOn,
      clearRecentlyChangedVertices, jsTruthy, arrayFrom, Transformation.kind]
  · simp [HandsOnEngine.removeColumns, graphRemoveColumns, transformAsts,
      enqueueTransformation, HandsOnEngine.recomputeIfDependencyGraphNeedsIt,
      evaluatorRunOn, clearRecentlyChangedVertices, jsTruthy, arrayFrom,
      Transformation.kind]
  · unfold HandsOnEngine.moveCells
    simp [hs, ht, graphMoveCells, transformAsts, enqueueTransformation,
      HandsOnEngine.recomputeIfDependencyGraphNeedsIt, evaluatorRunOn,
      clearRecentlyChangedVertices, jsTruthy, arrayFrom, Transformation.kind]

theorem c8_amended_eager_graph_before_enqueue_witness :
    (HandsOnEngine.addRows emptyEngineSt 0 1 1).opLog =
      emptyEngineSt.opLog ++ [.graphAddRows, .transformAstsEvent .addRowsK,
        .enqueueEvent .addRowsK, .evaluatorRunEvent] ∧
    (HandsOnEngine.removeRows emptyEngineSt 0 1 1).opLog =
      emptyEngineSt.opLog ++ [.graphRemoveRows, .transformAstsEvent .removeRowsK,
        .enqueueEvent .removeRowsK, .evaluatorRunEvent] ∧
    (HandsOnEngine.addColumns emptyEngineSt 0 1 1).opLog =
      emptyEngineSt.opLog ++ [.graphAddColumns, .columnIndexEvent,
        .transformAstsEvent .addColumnsK, .enqueueEvent .addColumnsK,
        .evaluatorRunEvent] ∧
    (HandsOnEngine.removeColumns emptyEngineSt 0 1 1).opLog =
      emptyEngineSt.opLog ++ [.graphRemoveColumns, .columnIndexEvent,
        .transformAstsEvent .removeColumnsK, .enqueueEvent .removeColumnsK,
        .evaluatorRunEvent] ∧
    (HandsOnEngine.moveCells emptyEngineSt ⟨0, 0, 0⟩ 1 1 ⟨0, 1, 0⟩).1.opLog =
      emptyEngineSt.opLog ++ [.transformAstsEvent .moveCellsK, .enqueueEvent .moveCellsK,
        .graphMoveCells, .evaluatorRunEvent] :=
  c8_amended_eager_graph_before_enqueue emptyEngineSt 0 1 1 1 1 1 1 1
    ⟨0, 0, 0⟩ ⟨0, 1, 0⟩ 1 1 rfl rfl

/-- C6 counterexample: setCellContent on a cell owned by a numeric
(non-formula) matrix vertex with a plain string or with formula content does
not split the matrix back to per-cell vertices - it throws the 'Illegal
operation' Error and leaves the engine state unchanged. -/
theorem c6_matrix_split_counterexample :
    HandsOnEngine.setCellContent matrixEngineSt ⟨0, 0, 0⟩ ['f', 'o', 'o'] =
      (matrixEngineSt, some "Illegal operation") ∧
    HandsOnEngine.setCellContent matrixEngineSt ⟨0, 0, 0⟩ ['=', 'A', '5'] =
      (matrixEngineSt, some "Illegal operation") :=
  ⟨rfl, rfl⟩

/-- C6 amended: on a cell owned by a numeric (non-formula) matrix vertex,
setCellContent with a numeric string updates the matrix in place via
setMatrixCellValue - same vertex id, same address mapping, only the numeric
payload changes - and with any non-numeric (string or formula) content the
call throws the 'Illegal operation' Error, leaving the state unchanged, rather
than splitting the matrix. -/
theorem c6_matrix_cell_amended (st : EngineSt) (a : SimpleCellAddress)
    (text : Str) (id : Nat) (r : AbsRange) (entries : List (SimpleCellAddress × ℚ))
    (hid : getVertexId st a = some id)
    (hdata : getVertexData st id = some (.matrixVertex none r entries)) :
    (∀ q, jsNumber text = some q →
      HandsOnEngine.setCellContent st a text =
        (evaluatorRunOn
          { st with
              vertexData := setAssoc st.vertexData id
                (.matrixVertex none r (setMatrixCellValue entries a q)) } [id], none)) ∧
    (jsNumber text = none →
      HandsOnEngine.setCellContent st a text = (st, some "Illegal operation")) := by
  have hcell : getCell st a = some (.matrixVertex none r entries) := by
    unfold getCell
    rw [hid]
    exact hdata
  constructor
  · intro q hq
    unfold HandsOnEngine.setCellContent
    rw [hcell, hid, hq]
    simp [isNumericMatrixVertexData]
  · intro hq
    unfold HandsOnEngine.setCellContent
    rw [hcell, hq]
    simp [isNumericMatrixVertexData, isMatrixVertexData, isPlainVertexData]

theorem c6_matrix_cell_amended_witness :
    (∀ q, jsNumber ['7'] = some q →
      HandsOnEngine.setCellContent matrixEngineSt ⟨0, 0, 0⟩ ['7'] =
        (evaluatorRunOn
          { matrixEngineSt with
              vertexData := setAssoc matrixEngineSt.vertexData 0
                (.matrixVertex none ⟨0, 0, 0, 0, 0⟩
                  (setMatrixCellValue [(⟨0, 0, 0⟩, 1)] ⟨0, 0, 0⟩ q)) } [0], none)) ∧
    (jsNumber ['7'] = none →
      HandsOnEngine.setCellContent matrixEngineSt ⟨0, 0, 0⟩ ['7'] =
        (matrixEngineSt, some "Illegal operation")) :=
  c6_matrix_cell_amended matrixEngineSt ⟨0, 0, 0⟩ ['7'] 0 ⟨0, 0, 0, 0, 0⟩
    [(⟨0, 0, 0⟩, 1)] rfl rfl

/-- C5 counterexample: on a cell holding a Value vertex - a case the claim
explicitly covers - a string of the array-formula brace form is not installed
as a matrix vertex: addNewMatrixVertex rejects the occupied rectangle, so
setCellContent throws and the cell keeps its Value vertex. -/
theorem c5_matrix_install_counterexample :
    isPlainVertexData (getCell valueEngineSt ⟨0, 0, 0⟩) = true ∧
    isMatrix ['{', '=', 'A', '1', '}'] = true ∧
    (HandsOnEngine.setCellContent valueEngineSt ⟨0, 0, 0⟩ ['{', '=', 'A', '1', '}']).2 =
      some "It is not possible to add matrix in that place" ∧
    getCell (HandsOnEngine.setCellContent valueEngineSt ⟨0, 0, 0⟩
        ['{', '=', 'A', '1', '}']).1 ⟨0, 0, 0⟩ =
      some (.valueVertex (.numV 3)) :=
  ⟨rfl, rfl, rfl, rfl⟩

/-- C5 amended: setCellContent on an address whose vertex is a Formula, Value
or Empty vertex or absent: a string beginning with an equals sign is parsed
and installed as a formula vertex; the empty string deletes the cell (sets it
Empty); an otherwise-numeric string is installed as a numeric Value vertex;
every other plain string is installed as a string Value vertex.  A string of
the array-formula brace form is installed as an array-formula matrix vertex
only when its rectangle overlaps no matrix and no non-empty cell - so when
the prior vertex is Empty or absent; when the rectangle overlaps a matrix or
a non-empty (Formula or Value) cell, addNewMatrixVertex rejects it and the
call throws instead of installing, the cell keeping its old vertex.  The hwf
hypothesis is the ownership invariant: every id the address mapping points at
is backed by the vertex store. -/
theorem c5_set_cell_content_dispatch (st : EngineSt) (a : SimpleCellAddress)
    (text : Str)
    (hplain : isPlainVertexData (getCell st a) = true)
    (hwf : ∀ id, getVertexId st a = some id → (getVertexData st id).isSome = true) :
    (isFormula text = true →
      ∀ res parser2, parseLexerMode parseFormulaModel st.parser text = some (res, parser2) →
      (HandsOnEngine.setCellContent st a text).2 = none ∧
      getCell (HandsOnEngine.setCellContent st a text).1 a =
        some (.formulaVertex res.ast res.addresses)) ∧
    (isMatrix text = true →
      ∀ res parser2,
        parseLexerMode parseFormulaModel st.parser ((text.drop 1).dropLast) =
          some (res, parser2) →
      matrixIntersects st (AbsRange.spanFrom a 1 1) = false →
      cellOccupied st a = false →
      (HandsOnEngine.setCellContent st a text).2 = none ∧
      getCell (HandsOnEngine.setCellContent st a text).1 a =
        some (.matrixVertex (some res.ast) (AbsRange.spanFrom a 1 1) [])) ∧
    (isMatrix text = true →
      ∀ res parser2,
        parseLexerMode parseFormulaModel st.parser ((text.drop 1).dropLast) =
          some (res, parser2) →
      matrixIntersects st (AbsRange.spanFrom a 1 1) = true ∨ cellOccupied st a = true →
      (HandsOnEngine.setCellContent st a text).2 =
        some "It is not possible to add matrix in that place" ∧
      getCell (HandsOnEngine.setCellContent st a text).1 a = getCell st a) ∧
    (text = [] →
      (HandsOnEngine.setCellContent st a text).2 = none ∧
      getCell (HandsOnEngine.setCellContent st a text).1 a = some .emptyVertex) ∧
    (∀ q, isFormula text = false → isMatrix text = false → text ≠ [] →
      jsNumber text = some q →
      (HandsOnEngine.setCellContent st a text).2 = none ∧
      getCell (HandsOnEngine.setCellContent st a text).1 a =
        some (.valueVertex (.numV q))) ∧
    (isFormula text = false → isMatrix text = false → jsNumber text = none →
      (HandsOnEngine.setCellContent st a text).2 = none ∧
      getCell (HandsOnEngine.setCellContent st a text).1 a =
        some (.valueVertex (.strV text))) := by
  obtain ⟨hmx, hnmx⟩ := isPlainVertexData_not_matrix (getCell st a) hplain
  refine ⟨?_, ?_, ?_, ?_, ?_, ?_⟩
  · intro hf res parser2 hparse
    have hm := isFormula_isMatrix_false text hf
    simp only [HandsOnEngine.setCellContent]
    rw [hnmx, hmx, hm, hplain, hf, hparse]
    simp only [Bool.false_and, Bool.false_eq_true, if_false, Bool.not_false,
      Bool.true_and, Bool.and_false, if_true]
    refine ⟨by trivial, ?_⟩
    rw [getCell_evaluatorRunOn, getCell_clear]
    exact getCell_setCellVertex { st with parser := parser2 } a
      (.formulaVertex res.ast res.addresses) hwf
  · intro hm res parser2 hparse hinter hocc
    simp only [HandsOnEngine.setCellContent]
    rw [hnmx, hmx, hm, hparse]
    simp only [Bool.false_and, Bool.false_eq_true, if_false, Bool.not_false,
      Bool.true_and, if_true]
    simp only [addNewMatrixVertex, buildMatrixVertexModel]
    rw [show matrixIntersects { st with parser := parser2 } (AbsRange.spanFrom a 1 1) =
      matrixIntersects st (AbsRange.spanFrom a 1 1) from rfl, hinter]
    rw [addressList_span_one]
    have hocc2 : cellOccupied { st with parser := parser2 } a = false := hocc
    simp only [List.any_cons, List.any_nil, hocc2, Bool.or_false, Bool.false_or,
      Bool.false_eq_true, if_false]
    refine ⟨by trivial, ?_⟩
    rw [getCell_evaluatorRunOn]
    unfold getCell getVertexId getVertexData
    simp [List.find?_cons]
  · intro hm res parser2 hparse hbad
    simp only [HandsOnEngine.setCellContent]
    rw [hnmx, hmx, hm, hparse]
    simp only [Bool.false_and, Bool.false_eq_true, if_false, Bool.not_false,
      Bool.true_and, if_true]
    simp only [addNewMatrixVertex, buildMatrixVertexModel]
    rw [addressList_span_one]
    have hcond : (matrixIntersects { st with parser := parser2 } (AbsRange.spanFrom a 1 1) ||
        [a].any (cellOccupied { st with parser := parser2 })) = true := by
      rcases hbad with hb | hb
      · have hb2 : matrixIntersects { st with parser := parser2 }
            (AbsRange.spanFrom a 1 1) = true := hb
        rw [hb2, Bool.true_or]
      · have hb2 : cellOccupied { st with parser := parser2 } a = true := hb
        simp [List.any_cons, hb2]
    rw [hcond]
    simp only [if_true]
    exact ⟨by trivial, by trivial⟩
  · intro he
    subst he
    simp only [HandsOnEngine.setCellContent]
    rw [hnmx, hmx, hplain]
    simp only [Bool.false_and, Bool.false_eq_true, if_false, Bool.not_false,
      Bool.true_and, Bool.and_false, if_true, isMatrix, isFormula]
    refine ⟨by trivial, ?_⟩
    rw [getCell_evaluatorRunOn, getCell_clear]
    exact getCell_setCellVertex st a .emptyVertex hwf
  · intro q hf hm hne hq
    simp only [HandsOnEngine.setCellContent]
    rw [hnmx, hmx, hm, hplain, hf, hq]
    simp only [Bool.false_and, Bool.false_eq_true, if_false, Bool.not_false,
      Bool.true_and, Bool.and_false, if_true, hne]
    refine ⟨by trivial, ?_⟩
    rw [getCell_evaluatorRunOn, getCell_clear]
    exact getCell_setCellVertex st a (.valueVertex (.numV q)) hwf
  · intro hf hm hq
    have hne : text ≠ [] := by
      intro he
      rw [he] at hq
      exact absurd hq (by simp [jsNumber])
    simp only [HandsOnEngine.setCellContent]
    rw [hnmx, hmx, hm, hplain, hf, hq]
    simp only [Bool.false_and, Bool.false_eq_true, if_false, Bool.not_false,
      Bool.true_and, Bool.and_false, if_true, hne]
    refine ⟨by trivial, ?_⟩
    rw [getCell_evaluatorRunOn, getCell_clear]
    exact getCell_setCellVertex st a (.valueVertex (.strV text)) hwf

theorem c5_set_cell_content_dispatch_witness :
    (isFormula ['a', 'b', 'c'] = true →
      ∀ res parser2,
        parseLexerMode parseFormulaModel emptyEngineSt.parser ['a', 'b', 'c'] =
          some (res, parser2) →
      (HandsOnEngine.setCellContent emptyEngineSt ⟨0, 0, 0⟩ ['a', 'b', 'c']).2 = none ∧
      getCell (HandsOnEngine.setCellContent emptyEngineSt ⟨0, 0, 0⟩ ['a', 'b', 'c']).1 ⟨0, 0, 0⟩ =
        some (.formulaVertex res.ast res.addresses)) ∧
    (isMatrix ['a', 'b', 'c'] = true →
      ∀ res parser2,
        parseLexerMode parseFormulaModel emptyEngineSt.parser
            ((['a', 'b', 'c'].drop 1).dropLast) = some (res, parser2) →
      matrixIntersects emptyEngineSt (AbsRange.spanFrom ⟨0, 0, 0⟩ 1 1) = false →
      cellOccupied emptyEngineSt ⟨0, 0, 0⟩ = false →
      (HandsOnEngine.setCellContent emptyEngineSt ⟨0, 0, 0⟩ ['a', 'b', 'c']).2 = none ∧
      getCell (HandsOnEngine.setCellContent emptyEngineSt ⟨0, 0, 0⟩ ['a', 'b', 'c']).1 ⟨0, 0, 0⟩ =
        some (.matrixVertex (some res.ast) (AbsRange.spanFrom ⟨0, 0, 0⟩ 1 1) [])) ∧
    (isMatrix ['a', 'b', 'c'] = true →
      ∀ res parser2,
        parseLexerMode parseFormulaModel emptyEngineSt.parser
            ((['a', 'b', 'c'].drop 1).dropLast) = some (res, parser2) →
      matrixIntersects emptyEngineSt (AbsRange.spanFrom ⟨0, 0, 0⟩ 1 1) = true ∨
        cellOccupied emptyEngineSt ⟨0, 0, 0⟩ = true →
      (HandsOnEngine.setCellContent emptyEngineSt ⟨0, 0, 0⟩ ['a', 'b', 'c']).2 =
        some "It is not possible to add matrix in that place" ∧
      getCell (HandsOnEngine.setCellContent emptyEngineSt ⟨0, 0, 0⟩ ['a', 'b', 'c']).1 ⟨0, 0, 0⟩ =
        getCell emptyEngineSt ⟨0, 0, 0⟩) ∧
    (['a', 'b', 'c'] = ([] : Str) →
      (HandsOnEngine.setCellContent emptyEngineSt ⟨0, 0, 0⟩ ['a', 'b', 'c']).2 = none ∧
      getCell (HandsOnEngine.setCellContent emptyEngineSt ⟨0, 0, 0⟩ ['a', 'b', 'c']).1 ⟨0, 0, 0⟩ =
        some .emptyVertex) ∧
    (∀ q, isFormula ['a', 'b', 'c'] = false → isMatrix ['a', 'b', 'c'] = false →
      ['a', 'b', 'c'] ≠ ([] : Str) → jsNumber ['a', 'b', 'c'] = some q →
      (HandsOnEngine.setCellContent emptyEngineSt ⟨0, 0, 0⟩ ['a', 'b', 'c']).2 = none ∧
      getCell (HandsOnEngine.setCellContent emptyEngineSt ⟨0, 0, 0⟩ ['a', 'b', 'c']).1 ⟨0, 0, 0⟩ =
        some (.valueVertex (.numV q))) ∧
    (isFormula ['a', 'b', 'c'] = false → isMatrix ['a', 'b', 'c'] = false →
      jsNumber ['a', 'b', 'c'] = none →
      (HandsOnEngine.setCellContent emptyEngineSt ⟨0, 0, 0⟩ ['a', 'b', 'c']).2 = none ∧
      getCell (HandsOnEngine.setCellContent emptyEngineSt ⟨0, 0, 0⟩ ['a', 'b', 'c']).1 ⟨0, 0, 0⟩ =
        some (.valueVertex (.strV ['a', 'b', 'c']))) :=
  c5_set_cell_content_dispatch emptyEngineSt ⟨0, 0, 0⟩ ['a', 'b', 'c'] rfl
    (fun _ h => Option.noConfusion h)
